import Mathlib

/-!
Verification development for the SET estimation engine
(internal/estimator and internal/ai of the Go sources).

Shallow embedding conventions:
- Go float64 values are modelled as exact rationals; all arithmetic the
  engine performs on them (sums, products, divisions, comparisons) is
  embedded exactly.
- Go maps used as sets or association maps are modelled as lists of pairs;
  a Go map never holds a key twice, which surfaces as Nodup hypotheses
  where a theorem needs it.
- Go pointers are modelled by values; nil pointers by Option. Pointer
  identity (used by selectEnhancedDataset via map keying on pointers)
  is modelled by value identity together with Nodup hypotheses on the
  corpus, matching the loader which allocates every entry freshly.
- Character classification (unicode.IsLetter and friends) is modelled with
  the ASCII classifiers of Lean Char; the engine and all inputs in this
  development are ASCII.
-/

namespace SET

/-- GitHub label as read by the estimator (only the name is consulted). -/
structure Label where
  Name : String
deriving DecidableEq, Repr

/-- GitHub issue fields read by the estimation engine. Display metadata
(ids, timestamps, assignees, urls) is not consulted by the engine and is
omitted. Custom field values reach the engine string-coerced, so the
free-form value bag is modelled as string-valued pairs. -/
structure GitHubIssue where
  Title : String
  Body : String
  State : String
  Labels : List Label
  CustomFields : List (String × String)
deriving DecidableEq, Repr

/-- HistoricalTask from estimator/estimator.go; the Issue pointer may be nil. -/
structure HistoricalTask where
  Issue : Option GitHubIssue
  ActualHours : ℚ
  EstimatedSize : String
  StoryPoints : ℚ
deriving DecidableEq, Repr

/-- Task from estimator/estimator.go; the context bag is string-valued. -/
structure Task where
  Title : String
  Description : String
  Labels : List String
  Context : List (String × String)
deriving DecidableEq, Repr

/-- SimilarityMatch from estimator/estimator.go. -/
structure SimilarityMatch where
  Task : HistoricalTask
  Similarity : ℚ
  Matches : List String
deriving DecidableEq, Repr

/-- EstimationConfig from estimator/estimator.go. -/
structure EstimationConfig where
  MaxSimilarTasks : Nat
  MinSimilarTasks : Nat
  MinSimilarityThreshold : ℚ
  StratifiedSamplesPerSize : Nat
deriving DecidableEq, Repr

/-- DefaultEstimationConfig from estimator/estimator.go. -/
def DefaultEstimationConfig : EstimationConfig :=
  { MaxSimilarTasks := 15
    MinSimilarTasks := 10
    MinSimilarityThreshold := 3/10
    StratifiedSamplesPerSize := 2 }

/-- SimilarityContext from estimator/estimator.go. -/
structure SimilarityContext where
  ThresholdUsed : ℚ
  ThresholdsTriedCount : Nat
  TotalTasksScanned : Nat
  MatchesFound : Nat
  HighestSimilarity : ℚ
deriving DecidableEq, Repr

/-- strings.ToLower modelled character-wise (ASCII, see the header note). -/
def strToLower (s : String) : String :=
  String.mk (s.toList.map Char.toLower)

/-- strings.TrimSpace modelled character-wise: drop whitespace from both ends. -/
def strTrim (s : String) : String :=
  String.mk (((s.toList.dropWhile Char.isWhitespace).reverse.dropWhile
    Char.isWhitespace).reverse)

/-- Worker for fieldsOf: split a character list into maximal nonempty runs
of non-whitespace characters; acc holds the current run reversed. -/
def fieldsAux : List Char → List Char → List String
  | [], acc => if acc = [] then [] else [String.mk acc.reverse]
  | c :: cs, acc =>
    if c.isWhitespace then
      if acc = [] then fieldsAux cs []
      else String.mk acc.reverse :: fieldsAux cs []
    else fieldsAux cs (c :: acc)

/-- strings.Fields: the whitespace-separated words of a string. -/
def fieldsOf (s : String) : List String :=
  fieldsAux s.toList []

/-- normalizeText from estimator/similarity.go: lower-case, trim, keep only
letters, digits and whitespace. -/
def normalizeText (text : String) : String :=
  let lowered := strToLower text
  let trimmed := strTrim lowered
  String.mk (trimmed.toList.filter (fun c => c.isAlphanum || c.isWhitespace))

/-- extractWords from estimator/similarity.go: split on whitespace
(strings.Fields), lower-case and trim each word, drop words of length at
most 2, and keep each remaining word once. The Go code collects the words
into a map used as a set and the word list is consumed only as a set by
jaccardSimilarity, so the deterministic duplicate removal used here is
observationally identical. -/
def extractWords (text : String) : List String :=
  let words := fieldsOf text
  let cleaned := words.map (fun w => strToLower (strTrim w))
  (cleaned.filter (fun w => 2 < w.length)).dedup

/-- jaccardSimilarity from estimator/similarity.go. -/
def jaccardSimilarity (set1 set2 : List String) : ℚ :=
  if set1 = [] ∧ set2 = [] then 1
  else
    let map1 := (set1.map strToLower).dedup
    let map2 := (set2.map strToLower).dedup
    let intersection := (map1.filter (fun w => w ∈ map2)).length
    let union := map1.length + map2.length - intersection
    if union = 0 then 0 else (intersection : ℚ) / (union : ℚ)

/-- calculateTextSimilarity from estimator/similarity.go. -/
def calculateTextSimilarity (text1 text2 : String) : ℚ :=
  let t1 := normalizeText text1
  let t2 := normalizeText text2
  if t1 = "" ∨ t2 = "" then 0
  else jaccardSimilarity (extractWords t1) (extractWords t2)

/-- calculateLabelSimilarity from estimator/similarity.go. -/
def calculateLabelSimilarity (labels1 labels2 : List String) : ℚ :=
  if labels1 = [] ∧ labels2 = [] then 1
  else if labels1 = [] ∨ labels2 = [] then 0
  else jaccardSimilarity labels1 labels2

/-- compareValues together with toString from estimator/similarity.go;
values are already string-coerced in this embedding. -/
def compareValues (v1 v2 : String) : Bool :=
  strToLower (strTrim v1) == strToLower (strTrim v2)

/-- calculateContextSimilarity from estimator/similarity.go. -/
def calculateContextSimilarity (context1 context2 : List (String × String)) : ℚ :=
  if context1 = [] ∧ context2 = [] then 1
  else if context1 = [] ∨ context2 = [] then 0
  else
    let matchCount := (context1.filter (fun kv =>
      match context2.lookup kv.1 with
      | some v2 => compareValues kv.2 v2
      | none => false)).length
    let total := context1.length +
      (context2.filter (fun kv => (context1.lookup kv.1).isNone)).length
    if total = 0 then 0 else (matchCount : ℚ) / (total : ℚ)

/-- extractLabels from estimator/similarity.go. -/
def extractLabels (issue : GitHubIssue) : List String :=
  issue.Labels.map Label.Name

/-- CalculateSimilarity from estimator/similarity.go. A nil historical
pointer and a nil Issue pointer both collapse to the none case. -/
def CalculateSimilarity (task : Task) (historical : HistoricalTask) : ℚ :=
  match historical.Issue with
  | none => 0
  | some issue =>
    let titleScore := calculateTextSimilarity task.Title issue.Title
    let score1 := titleScore * (4/10)
    let weight1 : ℚ := 4/10
    let score2 := if task.Description ≠ "" ∧ issue.Body ≠ "" then
        score1 + calculateTextSimilarity task.Description issue.Body * (3/10)
      else score1
    let weight2 := if task.Description ≠ "" ∧ issue.Body ≠ "" then
        weight1 + 3/10 else weight1
    let labelScore := calculateLabelSimilarity task.Labels (extractLabels issue)
    let score3 := score2 + labelScore * (2/10)
    let weight3 := weight2 + 2/10
    let score4 := if task.Context ≠ [] ∧ issue.CustomFields ≠ [] then
        score3 + calculateContextSimilarity task.Context issue.CustomFields * (1/10)
      else score3
    let weight4 := if task.Context ≠ [] ∧ issue.CustomFields ≠ [] then
        weight3 + 1/10 else weight3
    if 0 < weight4 then score4 / weight4 else 0

/-- identifyMatches from estimator/similarity.go. The Go code dereferences
the Issue pointer unconditionally and would crash on nil; the none branch
here is unreachable for loader-built corpora, and the retriever theorems
carry the corresponding hypothesis. -/
def identifyMatches (task : Task) (historical : HistoricalTask) : List String :=
  match historical.Issue with
  | none => []
  | some issue =>
    let m1 := if (1:ℚ)/2 < calculateTextSimilarity task.Title issue.Title
      then ["title"] else []
    let m2 := if task.Description ≠ "" ∧ issue.Body ≠ "" ∧
        (3:ℚ)/10 < calculateTextSimilarity task.Description issue.Body
      then ["description"] else []
    let m3 := if (3:ℚ)/10 < calculateLabelSimilarity task.Labels (extractLabels issue)
      then ["labels"] else []
    let m4 := if task.Context ≠ [] ∧ issue.CustomFields ≠ [] ∧
        (3:ℚ)/10 < calculateContextSimilarity task.Context issue.CustomFields
      then ["custom_fields"] else []
    m1 ++ m2 ++ m3 ++ m4

/-!
The estimator sorts with a hand-written in-place double loop
(sortBySimilarity in similarity.go; the same shape is inlined over hours
in estimator.go):

  for i in 0..n:
    for j in i+1..n:
      if shouldSwap a j a i then swap a i a j

Functional rendering: the inner loop keeps a current element (initially
the slot i value) and, scanning left to right, swaps it with any later
element the comparison prefers; the displaced current value lands in that
later slot. goSortPass is one inner loop; goSortRun is the outer loop.
swapq x cur decides whether the later element x is swapped in front of
the current element cur.
-/

/-- One inner pass of the double-loop swap sort. Returns the element left
in slot i and the rewritten suffix. -/
def goSortPass (swapq : α → α → Bool) (cur : α) : List α → α × List α
  | [] => (cur, [])
  | x :: xs =>
    if swapq x cur then
      let p := goSortPass swapq x xs
      (p.1, cur :: p.2)
    else
      let p := goSortPass swapq cur xs
      (p.1, x :: p.2)

theorem goSortPass_length (swapq : α → α → Bool) (cur : α) (l : List α) :
    (goSortPass swapq cur l).2.length = l.length := by
  induction l generalizing cur with
  | nil => simp [goSortPass]
  | cons x xs ih =>
    simp only [goSortPass]
    split <;> simp [ih]

/-- The outer loop of the double-loop swap sort, counted by the loop bound
n = length of the array, exactly as the source iterates i from 0 to n-1.
One inner pass consumes one unit of the bound. -/
def goSortAux (swapq : α → α → Bool) : Nat → List α → List α
  | 0, l => l
  | _ + 1, [] => []
  | n + 1, cur :: rest =>
    (goSortPass swapq cur rest).1 :: goSortAux swapq n (goSortPass swapq cur rest).2

/-- The double-loop swap sort of the source, outer bound instantiated with
the array length. -/
def goSortRun (swapq : α → α → Bool) (l : List α) : List α :=
  goSortAux swapq l.length l

theorem goSortRun_nil (swapq : α → α → Bool) : goSortRun swapq [] = [] := rfl

theorem goSortRun_cons (swapq : α → α → Bool) (cur : α) (rest : List α) :
    goSortRun swapq (cur :: rest) =
      (goSortPass swapq cur rest).1 ::
        goSortRun swapq (goSortPass swapq cur rest).2 := by
  simp [goSortRun, goSortAux, goSortPass_length]

/-- sortBySimilarity from estimator/similarity.go: descending by score,
realized by the swap sort with the swap test of the source
(matches at j strictly above matches at i). -/
def sortBySimilarity (ms : List SimilarityMatch) : List SimilarityMatch :=
  goSortRun (fun x cur => decide (cur.Similarity < x.Similarity)) ms

/-- Threshold ladder hard-coded in FindSimilarTasksAdaptive. -/
def adaptiveThresholds : List ℚ := [1/2, 2/5, 3/10, 1/5, 3/20]

/-- The scoredTask records FindSimilarTasksAdaptive precomputes. -/
structure ScoredTask where
  hist : HistoricalTask
  similarity : ℚ
  Matches : List String
deriving DecidableEq, Repr

/-- The precomputation loop of FindSimilarTasksAdaptive. -/
def scoredTasksOf (task : Task) (historical : List HistoricalTask) : List ScoredTask :=
  historical.map (fun h =>
    { hist := h
      similarity := CalculateSimilarity task h
      Matches := identifyMatches task h })

/-- The per-threshold filter of FindSimilarTasksAdaptive (corpus order). -/
def matchesAtThreshold (scoredTasks : List ScoredTask) (threshold : ℚ) : List SimilarityMatch :=
  (scoredTasks.filter (fun s => threshold ≤ s.similarity)).map
    (fun s => { Task := s.hist, Similarity := s.similarity, Matches := s.Matches })

/-- The running maximum FindSimilarTasksAdaptive keeps while scoring
(strict improvement test, zero start). -/
def maxSimilarityOf (task : Task) (historical : List HistoricalTask) : ℚ :=
  historical.foldl (fun m h =>
    if m < CalculateSimilarity task h then CalculateSimilarity task h else m) 0

/-- The threshold loop of FindSimilarTasksAdaptive. Per threshold: filter,
sort, stop with the truncated list when at least minDesired matches exist;
at the last threshold of the ladder (compared by value, as the source
compares against the final array entry) a nonempty result is also
accepted. Returns the selected list and threshold, if any, and the number
of thresholds tried. -/
def adaptiveLoop (scoredTasks : List ScoredTask) (minDesired maxMatches : Nat)
    (lastThreshold : ℚ) : List ℚ → Option (List SimilarityMatch × ℚ) × Nat
  | [] => (none, 0)
  | t :: ts =>
    let ms := sortBySimilarity (matchesAtThreshold scoredTasks t)
    if minDesired ≤ ms.length then
      (some (ms.take maxMatches, t), 1)
    else if t = lastThreshold ∧ 0 < ms.length then
      (some (ms.take maxMatches, t), 1)
    else
      let r := adaptiveLoop scoredTasks minDesired maxMatches lastThreshold ts
      (r.1, r.2 + 1)

/-- FindSimilarTasksAdaptive from estimator/similarity.go. -/
def FindSimilarTasksAdaptive (task : Task) (historical : List HistoricalTask)
    (config : EstimationConfig) : List SimilarityMatch × SimilarityContext :=
  let minDesiredMatches := 3
  let maxMatches := config.MaxSimilarTasks
  let scoredTasks := scoredTasksOf task historical
  let maxSimilarity := maxSimilarityOf task historical
  let r := adaptiveLoop scoredTasks minDesiredMatches maxMatches
    (adaptiveThresholds.getLastD 0) adaptiveThresholds
  let bestMatches := match r.1 with
    | some p => p.1
    | none => []
  let thresholdUsed := match r.1 with
    | some p => if p.1 = [] then config.MinSimilarityThreshold else p.2
    | none => config.MinSimilarityThreshold
  (bestMatches,
    { ThresholdUsed := thresholdUsed
      ThresholdsTriedCount := r.2
      TotalTasksScanned := historical.length
      MatchesFound := bestMatches.length
      HighestSimilarity := maxSimilarity })

/-!
Dataset enhancer (selectEnhancedDataset in estimator/estimator.go).
The Go code keeps a selectedMap alongside the enhanced slice; every append
to the slice is paired with marking the map, and both start empty, so the
map always equals the set of tasks of the enhanced slice. The embedding
recomputes that set from the slice where the source consults the map.
-/

/-- The inner sampling loop shared by the stratified step: append the
candidates in order while the enhanced list is still below minCount. -/
def addWhileBelow (minCount : Nat) (enh news : List SimilarityMatch) : List SimilarityMatch :=
  match news with
  | [] => enh
  | x :: xs => if enh.length < minCount then addWhileBelow minCount (enh ++ [x]) xs else enh

/-- Size bucket order fixed in selectEnhancedDataset. -/
def sizeOrder : List String := ["XS", "S", "M", "L", "XL"]

/-- The percentile ladder of the percentile-sample step, with the tags the
source formats for each entry. -/
def percentileLadder : List (ℚ × String) :=
  [(1/10, "percentile_10"), (1/4, "percentile_25"), (1/2, "percentile_50"),
   (3/4, "percentile_75"), (9/10, "percentile_90")]

/-- One size-bucket step of the stratified-sample loop in
selectEnhancedDataset. selected1 is the selection set as of the start of
step 2, against which the source builds all buckets. -/
def stratStep (historical selected1 : List HistoricalTask) (minCount sps : Nat)
    (enh : List SimilarityMatch) (size : String) : List SimilarityMatch :=
  if minCount ≤ enh.length then enh
  else
    let bucket := historical.filter (fun h => h ∉ selected1 ∧ h.EstimatedSize = size)
    let samplesNeeded := if bucket.length < sps then bucket.length else sps
    addWhileBelow minCount enh ((bucket.take samplesNeeded).map
      (fun h => { Task := h, Similarity := 0, Matches := ["stratified_sample"] }))

/-- One percentile step of the percentile-sample loop in
selectEnhancedDataset; sorted is the ascending-by-hours candidate list. -/
def percStep (sorted : List HistoricalTask) (minCount : Nat)
    (enh : List SimilarityMatch) (p : ℚ × String) : List SimilarityMatch :=
  if minCount ≤ enh.length then enh
  else
    let idx := (((sorted.length : ℚ) - 1) * p.1).floor.toNat
    match sorted.get? idx with
    | some h =>
      if h ∈ enh.map SimilarityMatch.Task then enh
      else enh ++ [{ Task := h, Similarity := 0, Matches := [p.2] }]
    | none => enh

/-- selectEnhancedDataset from estimator/estimator.go. -/
def selectEnhancedDataset (similarTasks : List SimilarityMatch)
    (historical : List HistoricalTask) (config : EstimationConfig) : List SimilarityMatch :=
  let enhanced1 := similarTasks.take config.MaxSimilarTasks
  let selected1 := enhanced1.map SimilarityMatch.Task
  let enhanced2 :=
    if enhanced1.length < config.MinSimilarTasks then
      sizeOrder.foldl
        (stratStep historical selected1 config.MinSimilarTasks config.StratifiedSamplesPerSize)
        enhanced1
    else enhanced1
  let selected2 := enhanced2.map SimilarityMatch.Task
  if enhanced2.length < config.MinSimilarTasks then
    let tasksWithHours := historical.filter (fun h => h ∉ selected2 ∧ 0 < h.ActualHours)
    let sorted := goSortRun (fun x cur => decide (x.ActualHours < cur.ActualHours)) tasksWithHours
    if 0 < sorted.length then
      percentileLadder.foldl (percStep sorted config.MinSimilarTasks) enhanced2
    else enhanced2
  else enhanced2

/-!
Statistics summarizer (calculateDatasetStatistics in estimator/estimator.go).
Go maps keyed by strings are modelled as association lists updated in
first-insertion order; lookups are what the claims consume.
-/

/-- Go-map increment m at key k (insert 1 when absent). -/
def mapIncr : List (String × Nat) → String → List (String × Nat)
  | [], k => [(k, 1)]
  | (k0, v) :: rest, k =>
    if k0 = k then (k0, v + 1) :: rest else (k0, v) :: mapIncr rest k

/-- Go-map add x to m at key k (insert x when absent). -/
def mapAddQ : List (String × ℚ) → String → ℚ → List (String × ℚ)
  | [], k, x => [(k, x)]
  | (k0, v) :: rest, k, x =>
    if k0 = k then (k0, v + x) :: rest else (k0, v) :: mapAddQ rest k x

/-- Go-map append x to the list at key k (insert singleton when absent). -/
def mapPush {β : Type} : List (String × List β) → String → β → List (String × List β)
  | [], k, x => [(k, [x])]
  | (k0, v) :: rest, k, x =>
    if k0 = k then (k0, v ++ [x]) :: rest else (k0, v) :: mapPush rest k x

/-- Go-map lookup with the zero value as default. -/
def mapGetD {β : Type} (m : List (String × β)) (k : String) (d : β) : β :=
  match m.lookup k with
  | some v => v
  | none => d

/-- CategoryStats from estimator/estimator.go. -/
structure CategoryStats where
  Count : Nat
  AvgHours : ℚ
  MinHours : ℚ
  MaxHours : ℚ
  TaskTitles : List String
deriving DecidableEq, Repr

/-- DatasetStatistics from estimator/estimator.go. -/
structure DatasetStatistics where
  TotalTasks : Nat
  ClosedTasks : Nat
  AvgHours : ℚ
  MedianHours : ℚ
  TasksBySize : List (String × Nat)
  TasksByCategory : List (String × Nat)
  CategoryBreakdown : List (String × CategoryStats)
  PercentileHours : List ℚ
deriving DecidableEq, Repr

/-- The accumulator of the main loop of calculateDatasetStatistics. -/
structure StatsAccum where
  totalTasks : Nat
  closedTasks : Nat
  totalHours : ℚ
  hoursCount : Nat
  hours : List ℚ
  tasksBySize : List (String × Nat)
  tasksByCategory : List (String × Nat)
  categoryHours : List (String × List ℚ)
  categoryTitles : List (String × List String)

/-- Empty accumulator for calculateDatasetStatistics. -/
def StatsAccum.init : StatsAccum :=
  { totalTasks := 0, closedTasks := 0, totalHours := 0, hoursCount := 0, hours := []
    tasksBySize := [], tasksByCategory := [], categoryHours := [], categoryTitles := [] }

/-- The per-label body of the main loop of calculateDatasetStatistics. -/
def statsLabelStep (hist : HistoricalTask) (issue : GitHubIssue) (acc : StatsAccum)
    (label : Label) : StatsAccum :=
  let acc := { acc with tasksByCategory := mapIncr acc.tasksByCategory label.Name }
  let acc := if 0 < hist.ActualHours then
      { acc with categoryHours := mapPush acc.categoryHours label.Name hist.ActualHours }
    else acc
  if (mapGetD acc.categoryTitles label.Name []).length < 3 then
    { acc with categoryTitles := mapPush acc.categoryTitles label.Name issue.Title }
  else acc

/-- One iteration of the main loop of calculateDatasetStatistics. -/
def statsStep (acc : StatsAccum) (hist : HistoricalTask) : StatsAccum :=
  let acc := { acc with totalTasks := acc.totalTasks + 1 }
  let acc := if (hist.Issue.map GitHubIssue.State).getD "" = "closed" then
      { acc with closedTasks := acc.closedTasks + 1 }
    else acc
  let acc := if 0 < hist.ActualHours then
      { acc with totalHours := acc.totalHours + hist.ActualHours
                 hours := acc.hours ++ [hist.ActualHours]
                 hoursCount := acc.hoursCount + 1 }
    else acc
  let acc := if hist.EstimatedSize ≠ "" then
      { acc with tasksBySize := mapIncr acc.tasksBySize hist.EstimatedSize }
    else acc
  match hist.Issue with
  | none => acc
  | some issue => issue.Labels.foldl (statsLabelStep hist issue) acc

/-- Median computation inside calculateDatasetStatistics: middle of the
sorted array, mean of the two middles when even. -/
def sortedMedian (sortedHours : List ℚ) : ℚ :=
  let mid := sortedHours.length / 2
  if sortedHours.length % 2 = 0 then
    ((sortedHours.getD (mid - 1) 0) + (sortedHours.getD mid 0)) / 2
  else sortedHours.getD mid 0

/-- Percentile fractions hard-coded in calculateDatasetStatistics. -/
def percentileFractions : List ℚ := [1/10, 1/4, 1/2, 3/4, 9/10]

/-- Percentile extraction inside calculateDatasetStatistics: index
floor((n-1)*p) into the sorted hours (Go int truncation on a non-negative
value is floor). -/
def percentileValues (sortedHours : List ℚ) : List ℚ :=
  percentileFractions.map (fun p =>
    sortedHours.getD ((((sortedHours.length : ℚ) - 1) * p).floor.toNat) 0)

/-- The category breakdown loop of calculateDatasetStatistics. -/
def categoryBreakdownOf (categoryHours : List (String × List ℚ))
    (categoryTitles : List (String × List String)) : List (String × CategoryStats) :=
  categoryHours.foldl (fun out kv =>
    match kv.2 with
    | [] => out
    | h0 :: _ =>
      let total := kv.2.foldl (fun t h => t + h) 0
      let minH := kv.2.foldl (fun m h => if h < m then h else m) h0
      let maxH := kv.2.foldl (fun m h => if m < h then h else m) h0
      out ++ [(kv.1,
        { Count := kv.2.length
          AvgHours := total / (kv.2.length : ℚ)
          MinHours := minH
          MaxHours := maxH
          TaskTitles := mapGetD categoryTitles kv.1 [] })]) []

/-- calculateDatasetStatistics from estimator/estimator.go. -/
def calculateDatasetStatistics (historical : List HistoricalTask) : Option DatasetStatistics :=
  if historical = [] then none
  else
    let acc := historical.foldl statsStep StatsAccum.init
    let base : DatasetStatistics :=
      { TotalTasks := acc.totalTasks
        ClosedTasks := acc.closedTasks
        AvgHours := 0
        MedianHours := 0
        TasksBySize := acc.tasksBySize
        TasksByCategory := acc.tasksByCategory
        CategoryBreakdown := categoryBreakdownOf acc.categoryHours acc.categoryTitles
        PercentileHours := [] }
    let withAvg :=
      if 0 < acc.hoursCount then
        let sortedHours := goSortRun (fun x cur => decide (x < cur)) acc.hours
        { base with
          AvgHours := acc.totalHours / (acc.hoursCount : ℚ)
          MedianHours := sortedMedian sortedHours
          PercentileHours := percentileValues sortedHours }
      else base
    some withAvg

/-!
Provider response validation (internal/ai/prompts.go and types.go).
-/

/-- EstimationResponse from ai/types.go. -/
structure EstimationResponse where
  EstimatedHours : ℚ
  EstimatedSize : String
  StoryPoints : ℚ
  ConfidenceScore : ℚ
  Reasoning : String
  Assumptions : List String
  Risks : List String
  RecommendedAction : String
deriving DecidableEq, Repr

/-- The five valid size codes of validateEstimationResponse. -/
def validSizes : List String := ["XS", "S", "M", "L", "XL"]

/-- validateEstimationResponse from ai/prompts.go: returns the error
message of the first failing check, if any. -/
def validateEstimationResponse (resp : EstimationResponse) : Option String :=
  if resp.EstimatedHours < 0 then some "estimated_hours must be non-negative"
  else if resp.StoryPoints < 0 then some "story_points must be non-negative"
  else if resp.ConfidenceScore < 0 ∨ 1 < resp.ConfidenceScore then
    some "confidence_score must be between 0.0 and 1.0"
  else if resp.EstimatedSize ≠ "" ∧ resp.EstimatedSize ∉ validSizes then
    some "estimated_size must be one of: XS, S, M, L, XL"
  else if resp.Reasoning = "" then some "reasoning is required"
  else none

/-- The validation gate of ParseEstimationJSON in ai/prompts.go, applied to
an already-unmarshalled response (JSON extraction and decoding are the
external part of the function). A validation failure is the ProviderError
outcome; a success returns the response unchanged. -/
def parseEstimationChecked (resp : EstimationResponse) : Except String EstimationResponse :=
  match validateEstimationResponse resp with
  | some e => .error e
  | none => .ok resp

/-!
Batch engine (internal/estimator/batch.go). The estimator invocation that
each worker performs is abstracted as a function from tasks to either a
result or an error, shared by all workers; the worker pool delivers to the
collector exactly one result per task, in a nondeterministic order modelled
by quantifying over permutations of the per-task results.
-/

/-- BatchTask from estimator/batch.go; the metadata fields not read by
processing (Priority, Assignee, ID) are carried along. -/
structure BatchTask where
  ID : String
  Title : String
  Description : String
  Labels : List String
  Context : List (String × String)
  Priority : String
  Assignee : String
deriving DecidableEq, Repr

/-- EstimationResult from estimator/estimator.go. -/
structure EstimationResult where
  Task : Task
  Estimation : Option EstimationResponse
  SimilarTasks : List SimilarityMatch
  Method : String
  DataSource : String
  DatasetStats : Option DatasetStatistics
  SimilarityContext : Option SimilarityContext
deriving DecidableEq, Repr

/-- BatchResult from estimator/batch.go (the ProcessedAt wall-clock stamp
is not modelled). -/
structure BatchResult where
  Task : BatchTask
  Result : Option EstimationResult
  Error : Option String
deriving DecidableEq, Repr

/-- BatchStatistics from estimator/batch.go. -/
structure BatchStatistics where
  TotalEstimatedHours : ℚ
  AverageHours : ℚ
  MedianHours : ℚ
  MinHours : ℚ
  MaxHours : ℚ
  AverageConfidence : ℚ
  SizeDistribution : List (String × Nat)
  SizeHours : List (String × ℚ)
  CategoryDistribution : List (String × Nat)
  CategoryHours : List (String × ℚ)
  HighConfidenceTasks : Nat
  MediumConfidenceTasks : Nat
  LowConfidenceTasks : Nat
deriving DecidableEq, Repr

/-- BatchReport from estimator/batch.go (wall-clock fields not modelled). -/
structure BatchReport where
  Request : List BatchTask
  Results : List BatchResult
  TotalTasks : Nat
  SuccessfulTasks : Nat
  FailedTasks : Nat
  Statistics : BatchStatistics
deriving DecidableEq, Repr

/-- calculateMedian from estimator/batch.go. Despite its name and its
comment, the source sums the values and divides by the count: it computes
the arithmetic mean, not a median. Embedded as written. -/
def calculateMedian (values : List ℚ) : ℚ :=
  if values = [] then 0
  else values.foldl (fun s v => s + v) 0 / (values.length : ℚ)

/-- findMin from estimator/batch.go. -/
def findMin (values : List ℚ) : ℚ :=
  match values with
  | [] => 0
  | v :: rest => rest.foldl (fun m x => if x < m then x else m) v

/-- findMax from estimator/batch.go. -/
def findMax (values : List ℚ) : ℚ :=
  match values with
  | [] => 0
  | v :: rest => rest.foldl (fun m x => if m < x then x else m) v

/-- Accumulator of the main loop of calculateStatistics in batch.go. -/
structure BatchAccum where
  hours : List ℚ
  totalEstimatedHours : ℚ
  sizeDistribution : List (String × Nat)
  sizeHours : List (String × ℚ)
  categoryDistribution : List (String × Nat)
  categoryHours : List (String × ℚ)
  confidenceSum : ℚ
  confidenceCount : Nat
  highConfidenceTasks : Nat
  mediumConfidenceTasks : Nat
  lowConfidenceTasks : Nat

/-- Empty accumulator for calculateStatistics. -/
def BatchAccum.init : BatchAccum :=
  { hours := [], totalEstimatedHours := 0, sizeDistribution := [], sizeHours := []
    categoryDistribution := [], categoryHours := [], confidenceSum := 0
    confidenceCount := 0, highConfidenceTasks := 0, mediumConfidenceTasks := 0
    lowConfidenceTasks := 0 }

/-- One iteration of the main loop of calculateStatistics: skip any result
carrying an error or missing its estimation, otherwise accumulate. -/
def batchStatsStep (acc : BatchAccum) (result : BatchResult) : BatchAccum :=
  match result.Error, result.Result with
  | none, some res =>
    match res.Estimation with
    | none => acc
    | some est =>
      let acc := { acc with
        hours := acc.hours ++ [est.EstimatedHours]
        totalEstimatedHours := acc.totalEstimatedHours + est.EstimatedHours
        sizeDistribution := mapIncr acc.sizeDistribution est.EstimatedSize
        sizeHours := mapAddQ acc.sizeHours est.EstimatedSize est.EstimatedHours }
      let acc := result.Task.Labels.foldl (fun acc label =>
        { acc with
          categoryDistribution := mapIncr acc.categoryDistribution label
          categoryHours := mapAddQ acc.categoryHours label est.EstimatedHours }) acc
      let acc := { acc with
        confidenceSum := acc.confidenceSum + est.ConfidenceScore
        confidenceCount := acc.confidenceCount + 1 }
      if 7/10 ≤ est.ConfidenceScore then
        { acc with highConfidenceTasks := acc.highConfidenceTasks + 1 }
      else if 1/2 ≤ est.ConfidenceScore then
        { acc with mediumConfidenceTasks := acc.mediumConfidenceTasks + 1 }
      else
        { acc with lowConfidenceTasks := acc.lowConfidenceTasks + 1 }
  | _, _ => acc

/-- calculateStatistics from estimator/batch.go. -/
def calculateStatistics (results : List BatchResult) : BatchStatistics :=
  let acc := results.foldl batchStatsStep BatchAccum.init
  let stats : BatchStatistics :=
    { TotalEstimatedHours := acc.totalEstimatedHours
      AverageHours := 0, MedianHours := 0, MinHours := 0, MaxHours := 0
      AverageConfidence := 0
      SizeDistribution := acc.sizeDistribution
      SizeHours := acc.sizeHours
      CategoryDistribution := acc.categoryDistribution
      CategoryHours := acc.categoryHours
      HighConfidenceTasks := acc.highConfidenceTasks
      MediumConfidenceTasks := acc.mediumConfidenceTasks
      LowConfidenceTasks := acc.lowConfidenceTasks }
  let stats :=
    if 0 < acc.hours.length then
      { stats with
        AverageHours := acc.totalEstimatedHours / (acc.hours.length : ℚ)
        MedianHours := calculateMedian acc.hours
        MinHours := findMin acc.hours
        MaxHours := findMax acc.hours }
    else stats
  if 0 < acc.confidenceCount then
    { stats with AverageConfidence := acc.confidenceSum / (acc.confidenceCount : ℚ) }
  else stats

/-- The BatchTask-to-Task conversion performed inside each worker. -/
def batchTaskToTask (bt : BatchTask) : Task :=
  { Title := bt.Title, Description := bt.Description, Labels := bt.Labels
    Context := bt.Context }

/-- The body of one worker iteration in batch.go: run the estimator on the
converted task and record either the result or the error, never both. -/
def runOneBatchTask (estimate : Task → Except String EstimationResult)
    (bt : BatchTask) : BatchResult :=
  match estimate (batchTaskToTask bt) with
  | .ok r => { Task := bt, Result := some r, Error := none }
  | .error e => { Task := bt, Result := none, Error := some e }

/-- The full multiset of per-task results the worker pool delivers: one
per task, each computed independently by runOneBatchTask. The collector
receives these in some pool-schedule-dependent order; theorems quantify
over that order as a permutation of this list. -/
def processBatchResults (estimate : Task → Except String EstimationResult)
    (tasks : List BatchTask) : List BatchResult :=
  tasks.map (runOneBatchTask estimate)

/-- The report assembly of ProcessBatch in batch.go, over the results in
their collection order. -/
def mkBatchReport (tasks : List BatchTask) (collected : List BatchResult) : BatchReport :=
  { Request := tasks
    Results := collected
    TotalTasks := tasks.length
    SuccessfulTasks := (collected.filter (fun r => r.Error = none)).length
    FailedTasks := (collected.filter (fun r => r.Error ≠ none)).length
    Statistics := calculateStatistics collected }

/-!
Range facts about the similarity sub-scores, leading to claim C1.
-/

theorem natDiv_bounds (i u : ℕ) (hiu : i ≤ u) (hu : u ≠ 0) :
    0 ≤ (i : ℚ) / (u : ℚ) ∧ (i : ℚ) / (u : ℚ) ≤ 1 := by
  have hu' : (0 : ℚ) < u := by exact_mod_cast Nat.pos_of_ne_zero hu
  refine ⟨by positivity, ?_⟩
  rw [div_le_one hu']
  exact_mod_cast hiu

theorem jaccardSimilarity_bounds (set1 set2 : List String) :
    0 ≤ jaccardSimilarity set1 set2 ∧ jaccardSimilarity set1 set2 ≤ 1 := by
  unfold jaccardSimilarity
  split
  · norm_num
  · simp only
    split
    · norm_num
    · rename_i hu
      set m1 := (set1.map strToLower).dedup with hm1
      set m2 := (set2.map strToLower).dedup with hm2
      have hile1 : (m1.filter (fun w => w ∈ m2)).length ≤ m1.length :=
        List.length_filter_le _ _
      have hsub : (m1.filter (fun w => w ∈ m2)) ⊆ m2 := by
        intro x hx
        have := List.of_mem_filter hx
        simpa using this
      have hnd : (m1.filter (fun w => w ∈ m2)).Nodup :=
        (List.nodup_dedup _).filter _
      have hile2 : (m1.filter (fun w => w ∈ m2)).length ≤ m2.length :=
        (hnd.subperm hsub).length_le
      exact natDiv_bounds _ _ (by omega) hu

theorem calculateTextSimilarity_bounds (text1 text2 : String) :
    0 ≤ calculateTextSimilarity text1 text2 ∧ calculateTextSimilarity text1 text2 ≤ 1 := by
  simp only [calculateTextSimilarity]
  split
  · norm_num
  · exact jaccardSimilarity_bounds _ _

theorem calculateLabelSimilarity_bounds (labels1 labels2 : List String) :
    0 ≤ calculateLabelSimilarity labels1 labels2 ∧
      calculateLabelSimilarity labels1 labels2 ≤ 1 := by
  unfold calculateLabelSimilarity
  split
  · norm_num
  · split
    · norm_num
    · exact jaccardSimilarity_bounds _ _

theorem calculateContextSimilarity_bounds (context1 context2 : List (String × String)) :
    0 ≤ calculateContextSimilarity context1 context2 ∧
      calculateContextSimilarity context1 context2 ≤ 1 := by
  unfold calculateContextSimilarity
  split
  · norm_num
  · split
    · norm_num
    · simp only
      split
      · norm_num
      · rename_i ht
        have hle : (context1.filter (fun kv =>
            match context2.lookup kv.1 with
            | some v2 => compareValues kv.2 v2
            | none => false)).length ≤ context1.length :=
          List.length_filter_le _ _
        exact natDiv_bounds _ _ (by omega) ht

/-- Helper: the similarity score always lies between 0 and 1. -/
theorem calculateSimilarity_unit (task : Task) (historical : HistoricalTask) :
    0 ≤ CalculateSimilarity task historical ∧ CalculateSimilarity task historical ≤ 1 := by
  unfold CalculateSimilarity
  cases hI : historical.Issue with
  | none => norm_num
  | some issue =>
    simp only
    obtain ⟨ht0, ht1⟩ := calculateTextSimilarity_bounds task.Title issue.Title
    obtain ⟨hd0, hd1⟩ := calculateTextSimilarity_bounds task.Description issue.Body
    obtain ⟨hl0, hl1⟩ :=
      calculateLabelSimilarity_bounds task.Labels (extractLabels issue)
    obtain ⟨hc0, hc1⟩ :=
      calculateContextSimilarity_bounds task.Context issue.CustomFields
    constructor <;>
    · split <;> split <;> split <;>
        first
          | (apply div_nonneg
             · nlinarith
             · norm_num)
          | (rw [div_le_one (by norm_num)]
             nlinarith)
          | norm_num

/-- Claim C1. For every task and historical entry the similarity score lies
in the closed interval from 0 to 1, and an entry whose underlying source
record is absent (a nil Issue) scores exactly 0 with no error. -/
theorem calculateSimilarity_range (task : Task) (historical : HistoricalTask) :
    0 ≤ CalculateSimilarity task historical ∧
      CalculateSimilarity task historical ≤ 1 ∧
      (historical.Issue = none → CalculateSimilarity task historical = 0) := by
  obtain ⟨h0, h1⟩ := calculateSimilarity_unit task historical
  refine ⟨h0, h1, ?_⟩
  intro hI
  unfold CalculateSimilarity
  rw [hI]

/-- Witness for calculateSimilarity_range: a concrete entry with no source
record scores exactly 0, inside the range. -/
theorem calculateSimilarity_range_witness :
    0 ≤ CalculateSimilarity (Task.mk "t" "" [] []) (HistoricalTask.mk none 0 "" 0) ∧
      CalculateSimilarity (Task.mk "t" "" [] []) (HistoricalTask.mk none 0 "" 0) ≤ 1 ∧
      CalculateSimilarity (Task.mk "t" "" [] []) (HistoricalTask.mk none 0 "" 0) = 0 := by
  have h := calculateSimilarity_range (Task.mk "t" "" [] []) (HistoricalTask.mk none 0 "" 0)
  exact ⟨h.1, h.2.1, h.2.2 rfl⟩

/-!
Claim C8: the score is the weighted sum of the applicable sub-scores
divided by the sum of the applied weights.
-/

/-- Spec-side formula for the similarity score (claim C8, spec section 4.1):
title weight 0.4 and label weight 0.2 always apply; description weight 0.3
applies only when both descriptions are nonempty; context weight 0.1
applies only when both context maps are nonempty; the weighted sum is
divided by the sum of the weights actually applied. Written from the
specification text, to be compared against CalculateSimilarity. -/
def similaritySpecFormula (task : Task) (issue : GitHubIssue) : ℚ :=
  let descApplies := task.Description ≠ "" ∧ issue.Body ≠ ""
  let ctxApplies := task.Context ≠ [] ∧ issue.CustomFields ≠ []
  let num := calculateTextSimilarity task.Title issue.Title * (4/10)
    + (if descApplies then calculateTextSimilarity task.Description issue.Body * (3/10) else 0)
    + calculateLabelSimilarity task.Labels (extractLabels issue) * (2/10)
    + (if ctxApplies then calculateContextSimilarity task.Context issue.CustomFields * (1/10) else 0)
  let den := (4/10 : ℚ)
    + (if descApplies then (3/10 : ℚ) else 0)
    + (2/10 : ℚ)
    + (if ctxApplies then (1/10 : ℚ) else 0)
  num / den

/-- Claim C8. For every task and historical entry with a source record, the
similarity score equals the spec formula: the weighted sum of the
applicable sub-scores (title 0.4, description 0.3, labels 0.2, context 0.1)
divided by the sum of the weights actually applied, the description
sub-score being skipped when either description is empty and the context
sub-score when either context map is empty. -/
theorem calculateSimilarity_eq_specFormula (task : Task) (historical : HistoricalTask)
    (issue : GitHubIssue) (hI : historical.Issue = some issue) :
    CalculateSimilarity task historical = similaritySpecFormula task issue := by
  unfold CalculateSimilarity similaritySpecFormula
  rw [hI]
  simp only
  split <;> split <;>
  · split
    · ring
    · norm_num at *

/-- Witness for calculateSimilarity_eq_specFormula at a concrete pair. -/
theorem calculateSimilarity_eq_specFormula_witness :
    CalculateSimilarity (Task.mk "fix login" "" [] [])
        (HistoricalTask.mk (some (GitHubIssue.mk "fix login" "" "closed" [] [])) 4 "S" 2) =
      similaritySpecFormula (Task.mk "fix login" "" [] [])
        (GitHubIssue.mk "fix login" "" "closed" [] []) :=
  calculateSimilarity_eq_specFormula _ _ _ rfl

/-!
Correctness of the double-loop swap sort: the result is a permutation of
the input, and it is sorted for any reflexive transitive relation that the
swap test decides.
-/

theorem goSortPass_perm (swapq : α → α → Bool) (l : List α) (cur : α) :
    List.Perm ((goSortPass swapq cur l).1 :: (goSortPass swapq cur l).2) (cur :: l) := by
  induction l generalizing cur with
  | nil => simp [goSortPass]
  | cons x xs ih =>
    simp only [goSortPass]
    split
    · exact (List.Perm.swap cur (goSortPass swapq x xs).1 (goSortPass swapq x xs).2).trans
        ((ih x).cons cur)
    · refine (List.Perm.swap x (goSortPass swapq cur xs).1 (goSortPass swapq cur xs).2).trans
        ?_
      exact ((ih cur).cons x).trans (List.Perm.swap cur x xs)

theorem goSortPass_dominates (R : α → α → Prop) (swapq : α → α → Bool)
    (hT : ∀ x c, swapq x c = true → R x c)
    (hF : ∀ x c, swapq x c = false → R c x)
    (htrans : ∀ a b c, R a b → R b c → R a c)
    (hrefl : ∀ a, R a a)
    (l : List α) (cur : α) :
    R (goSortPass swapq cur l).1 cur ∧
      ∀ y ∈ (goSortPass swapq cur l).2, R (goSortPass swapq cur l).1 y := by
  induction l generalizing cur with
  | nil => simpa [goSortPass] using hrefl cur
  | cons x xs ih =>
    simp only [goSortPass]
    split
    · rename_i hsw
      obtain ⟨h1, h2⟩ := ih x
      have hxc : R x cur := hT x cur hsw
      refine ⟨htrans _ _ _ h1 hxc, ?_⟩
      intro y hy
      rcases List.mem_cons.mp hy with rfl | hy
      · exact htrans _ _ _ h1 hxc
      · exact h2 y hy
    · rename_i hsw
      obtain ⟨h1, h2⟩ := ih cur
      have hsw2 : swapq x cur = false := by
        simpa using hsw
      have hcx : R cur x := hF x cur hsw2
      refine ⟨h1, ?_⟩
      intro y hy
      rcases List.mem_cons.mp hy with rfl | hy
      · exact htrans _ _ _ h1 hcx
      · exact h2 y hy

theorem goSortRun_perm (swapq : α → α → Bool) (l : List α) :
    List.Perm (goSortRun swapq l) l := by
  have main : ∀ n (l : List α), l.length ≤ n → List.Perm (goSortRun swapq l) l := by
    intro n
    induction n with
    | zero =>
      intro l hl
      rw [List.length_eq_zero.mp (Nat.le_zero.mp hl)]
      exact List.Perm.nil
    | succ n ih =>
      intro l hl
      match l with
      | [] => exact List.Perm.nil
      | cur :: rest =>
        rw [goSortRun_cons]
        have hlen : (goSortPass swapq cur rest).2.length ≤ n := by
          rw [goSortPass_length]
          simpa using hl
        exact ((ih _ hlen).cons _).trans (goSortPass_perm swapq rest cur)
  exact main l.length l le_rfl

theorem goSortRun_sorted (R : α → α → Prop) (swapq : α → α → Bool)
    (hT : ∀ x c, swapq x c = true → R x c)
    (hF : ∀ x c, swapq x c = false → R c x)
    (htrans : ∀ a b c, R a b → R b c → R a c)
    (hrefl : ∀ a, R a a)
    (l : List α) : List.Sorted R (goSortRun swapq l) := by
  have main : ∀ n (l : List α), l.length ≤ n → List.Sorted R (goSortRun swapq l) := by
    intro n
    induction n with
    | zero =>
      intro l hl
      rw [List.length_eq_zero.mp (Nat.le_zero.mp hl)]
      simp [goSortRun_nil]
    | succ n ih =>
      intro l hl
      match l with
      | [] => simp [goSortRun_nil]
      | cur :: rest =>
        rw [goSortRun_cons]
        have hlen : (goSortPass swapq cur rest).2.length ≤ n := by
          rw [goSortPass_length]
          simpa using hl
        rw [List.Sorted, List.pairwise_cons]
        refine ⟨?_, ih _ hlen⟩
        intro y hy
        have hmem : y ∈ (goSortPass swapq cur rest).2 :=
          (goSortRun_perm swapq _).mem_iff.mp hy
        exact (goSortPass_dominates R swapq hT hF htrans hrefl rest cur).2 y hmem
  exact main l.length l le_rfl

/-- sortBySimilarity permutes its input. -/
theorem sortBySimilarity_perm (ms : List SimilarityMatch) :
    List.Perm (sortBySimilarity ms) ms :=
  goSortRun_perm _ ms

/-- sortBySimilarity sorts by non-increasing similarity. -/
theorem sortBySimilarity_sorted (ms : List SimilarityMatch) :
    List.Sorted (fun a b : SimilarityMatch => b.Similarity ≤ a.Similarity)
      (sortBySimilarity ms) := by
  refine goSortRun_sorted _ _ ?_ ?_ ?_ ?_ ms
  · intro x c h
    exact le_of_lt (of_decide_eq_true h)
  · intro x c h
    exact not_lt.mp (of_decide_eq_false h)
  · intro a b c h1 h2
    exact le_trans h2 h1
  · intro a
    exact le_rfl

/-!
Facts about the adaptive retriever, leading to claims C4, C9 and C10.
-/

theorem foldl_simMax_spec (task : Task) (l : List HistoricalTask) (a : ℚ) :
    a ≤ l.foldl (fun m h =>
        if m < CalculateSimilarity task h then CalculateSimilarity task h else m) a ∧
    (∀ h ∈ l, CalculateSimilarity task h ≤ l.foldl (fun m h =>
        if m < CalculateSimilarity task h then CalculateSimilarity task h else m) a) ∧
    (l.foldl (fun m h =>
        if m < CalculateSimilarity task h then CalculateSimilarity task h else m) a = a ∨
      ∃ h ∈ l, l.foldl (fun m h =>
        if m < CalculateSimilarity task h then CalculateSimilarity task h else m) a =
          CalculateSimilarity task h) := by
  induction l generalizing a with
  | nil => simp
  | cons x xs ih =>
    simp only [List.foldl_cons]
    by_cases hx : a < CalculateSimilarity task x
    · rw [if_pos hx]
      obtain ⟨h1, h2, h3⟩ := ih (CalculateSimilarity task x)
      refine ⟨le_trans (le_of_lt hx) h1, ?_, ?_⟩
      · intro h hh
        rcases List.mem_cons.mp hh with rfl | hh
        · exact h1
        · exact h2 h hh
      · rcases h3 with h3 | ⟨h, hh, h3⟩
        · exact Or.inr ⟨x, List.mem_cons_self _ _, h3⟩
        · exact Or.inr ⟨h, List.mem_cons_of_mem _ hh, h3⟩
    · rw [if_neg hx]
      obtain ⟨h1, h2, h3⟩ := ih a
      refine ⟨h1, ?_, ?_⟩
      · intro h hh
        rcases List.mem_cons.mp hh with rfl | hh
        · exact le_trans (not_lt.mp hx) h1
        · exact h2 h hh
      · rcases h3 with h3 | ⟨h, hh, h3⟩
        · exact Or.inl h3
        · exact Or.inr ⟨h, List.mem_cons_of_mem _ hh, h3⟩

/-- The tracked maximum bounds every score of the corpus. -/
theorem maxSimilarityOf_ub (task : Task) (historical : List HistoricalTask) :
    ∀ h ∈ historical, CalculateSimilarity task h ≤ maxSimilarityOf task historical :=
  (foldl_simMax_spec task historical 0).2.1

/-- On a nonempty corpus the tracked maximum is attained: it is one of the
scores, hence the true brute-force maximum together with maxSimilarityOf_ub. -/
theorem maxSimilarityOf_mem (task : Task) (historical : List HistoricalTask)
    (hne : historical ≠ []) :
    maxSimilarityOf task historical ∈ historical.map (CalculateSimilarity task) := by
  obtain ⟨h1, h2, h3⟩ := foldl_simMax_spec task historical 0
  rcases h3 with h3 | ⟨h, hh, h3⟩
  · cases historical with
    | nil => exact absurd rfl hne
    | cons x xs =>
      have hx0 : 0 ≤ CalculateSimilarity task x := (calculateSimilarity_unit task x).1
      have hfold : maxSimilarityOf task (x :: xs) = 0 := by
        unfold maxSimilarityOf
        exact h3
      have hxle : CalculateSimilarity task x ≤ maxSimilarityOf task (x :: xs) := by
        unfold maxSimilarityOf
        exact h2 x (List.mem_cons_self x xs)
      have hxeq : CalculateSimilarity task x = maxSimilarityOf task (x :: xs) :=
        le_antisymm (hfold ▸ hxle) (hfold ▸ hx0)
      exact List.mem_map.mpr ⟨x, List.mem_cons_self x xs, hxeq⟩
  · refine List.mem_map.mpr ⟨h, hh, ?_⟩
    unfold maxSimilarityOf
    exact h3.symm

/-- The per-threshold match list is the corpus filter, scored and tagged. -/
theorem matchesAtThreshold_scoredTasksOf (task : Task) (historical : List HistoricalTask)
    (t : ℚ) :
    matchesAtThreshold (scoredTasksOf task historical) t =
      (historical.filter (fun h => t ≤ CalculateSimilarity task h)).map
        (fun h => SimilarityMatch.mk h (CalculateSimilarity task h)
          (identifyMatches task h)) := by
  unfold matchesAtThreshold scoredTasksOf
  induction historical with
  | nil => simp
  | cons x xs ih =>
    simp only [List.map_cons, List.filter_cons]
    by_cases hx : t ≤ CalculateSimilarity task x
    · simp [hx, ih]
    · simp [hx, ih]

/-- Match counts shrink as the threshold grows. -/
theorem matchesAtThreshold_length_mono (scoredTasks : List ScoredTask) {t1 t2 : ℚ}
    (h : t1 ≤ t2) :
    (matchesAtThreshold scoredTasks t2).length ≤
      (matchesAtThreshold scoredTasks t1).length := by
  unfold matchesAtThreshold
  simp only [List.length_map]
  simp only [← List.countP_eq_length_filter]
  refine List.countP_mono_left ?_
  intro x hx hpx
  have hx2 : t2 ≤ x.similarity := of_decide_eq_true hpx
  exact decide_eq_true (le_trans h hx2)

theorem adaptiveLoop_cons_skip (scoredTasks : List ScoredTask) (minD maxM : Nat)
    (lastT t : ℚ) (ts : List ℚ)
    (hlen : (matchesAtThreshold scoredTasks t).length < minD)
    (hne : t ≠ lastT) :
    adaptiveLoop scoredTasks minD maxM lastT (t :: ts) =
      ((adaptiveLoop scoredTasks minD maxM lastT ts).1,
        (adaptiveLoop scoredTasks minD maxM lastT ts).2 + 1) := by
  simp only [adaptiveLoop]
  have hms : ¬ (minD ≤ (sortBySimilarity (matchesAtThreshold scoredTasks t)).length) := by
    rw [(sortBySimilarity_perm _).length_eq]
    omega
  rw [if_neg hms, if_neg (by simp [hne])]

theorem adaptiveLoop_cons_hit (scoredTasks : List ScoredTask) (minD maxM : Nat)
    (lastT t : ℚ) (ts : List ℚ)
    (hlen : minD ≤ (matchesAtThreshold scoredTasks t).length) :
    adaptiveLoop scoredTasks minD maxM lastT (t :: ts) =
      (some ((sortBySimilarity (matchesAtThreshold scoredTasks t)).take maxM, t), 1) := by
  simp only [adaptiveLoop]
  rw [if_pos (by rw [(sortBySimilarity_perm _).length_eq]; exact hlen)]

theorem adaptiveLoop_last (scoredTasks : List ScoredTask) (minD maxM : Nat) (lastT : ℚ)
    (hlen : (matchesAtThreshold scoredTasks lastT).length < minD) :
    adaptiveLoop scoredTasks minD maxM lastT [lastT] =
      (if 0 < (matchesAtThreshold scoredTasks lastT).length
       then some ((sortBySimilarity (matchesAtThreshold scoredTasks lastT)).take maxM, lastT)
       else none, 1) := by
  simp only [adaptiveLoop]
  have hms : ¬ (minD ≤ (sortBySimilarity (matchesAtThreshold scoredTasks lastT)).length) := by
    rw [(sortBySimilarity_perm _).length_eq]
    omega
  rw [if_neg hms]
  by_cases h0 : 0 < (matchesAtThreshold scoredTasks lastT).length
  · rw [if_pos ⟨by trivial, by rw [(sortBySimilarity_perm _).length_eq]; exact h0⟩, if_pos h0]
  · rw [if_neg ?_, if_neg h0]
    · intro hc
      exact h0 (by rw [← (sortBySimilarity_perm (matchesAtThreshold scoredTasks lastT)).length_eq]; exact hc.2)

/-- With fewer than minDesired matches at the loosest threshold, the ladder
walks through all five levels and settles on the loosest one. -/
theorem adaptiveLoop_all_below (scoredTasks : List ScoredTask) (maxM : Nat)
    (hfew : (matchesAtThreshold scoredTasks (3/20)).length < 3) :
    adaptiveLoop scoredTasks 3 maxM (3/20) adaptiveThresholds =
      (if 0 < (matchesAtThreshold scoredTasks (3/20)).length
       then some ((sortBySimilarity (matchesAtThreshold scoredTasks (3/20))).take maxM, 3/20)
       else none, 5) := by
  have hm : ∀ t : ℚ, 3/20 ≤ t → (matchesAtThreshold scoredTasks t).length < 3 :=
    fun t ht => lt_of_le_of_lt (matchesAtThreshold_length_mono scoredTasks ht) hfew
  show adaptiveLoop scoredTasks 3 maxM (3/20) [1/2, 2/5, 3/10, 1/5, 3/20] = _
  rw [adaptiveLoop_cons_skip _ _ _ _ _ _ (hm _ (by norm_num)) (by norm_num),
    adaptiveLoop_cons_skip _ _ _ _ _ _ (hm _ (by norm_num)) (by norm_num),
    adaptiveLoop_cons_skip _ _ _ _ _ _ (hm _ (by norm_num)) (by norm_num),
    adaptiveLoop_cons_skip _ _ _ _ _ _ (hm _ (by norm_num)) (by norm_num),
    adaptiveLoop_last _ _ _ _ hfew]

/-- Retriever outcome when nothing scores at the loosest threshold: empty
match list and the configured threshold reported. -/
theorem findAdaptive_of_none (task : Task) (historical : List HistoricalTask)
    (config : EstimationConfig)
    (hlen0 : (matchesAtThreshold (scoredTasksOf task historical) (3/20)).length = 0) :
    FindSimilarTasksAdaptive task historical config =
      ([], SimilarityContext.mk config.MinSimilarityThreshold 5 historical.length 0
        (maxSimilarityOf task historical)) := by
  simp only [FindSimilarTasksAdaptive]
  rw [show adaptiveThresholds.getLastD 0 = 3/20 from rfl]
  rw [adaptiveLoop_all_below _ _ (by omega)]
  rw [if_neg (by omega)]
  rfl

/-- Retriever outcome when the loosest threshold sees at least one but
fewer than three matches: the sorted loose matches are returned whole and
the loosest threshold is reported. -/
theorem findAdaptive_of_few_pos (task : Task) (historical : List HistoricalTask)
    (config : EstimationConfig)
    (hmax : 3 ≤ config.MaxSimilarTasks)
    (hfew : (matchesAtThreshold (scoredTasksOf task historical) (3/20)).length < 3)
    (h0 : 0 < (matchesAtThreshold (scoredTasksOf task historical) (3/20)).length) :
    FindSimilarTasksAdaptive task historical config =
      (sortBySimilarity (matchesAtThreshold (scoredTasksOf task historical) (3/20)),
       SimilarityContext.mk (3/20) 5 historical.length
         (matchesAtThreshold (scoredTasksOf task historical) (3/20)).length
         (maxSimilarityOf task historical)) := by
  simp only [FindSimilarTasksAdaptive]
  rw [show adaptiveThresholds.getLastD 0 = 3/20 from rfl]
  rw [adaptiveLoop_all_below _ _ hfew]
  rw [if_pos h0]
  dsimp only
  have htake : (sortBySimilarity (matchesAtThreshold (scoredTasksOf task historical)
      (3/20))).take config.MaxSimilarTasks =
      sortBySimilarity (matchesAtThreshold (scoredTasksOf task historical) (3/20)) := by
    refine List.take_of_length_le ?_
    rw [(sortBySimilarity_perm _).length_eq]
    omega
  have hne : sortBySimilarity (matchesAtThreshold (scoredTasksOf task historical)
      (3/20)) ≠ [] := by
    intro hc
    rw [← List.length_eq_zero, (sortBySimilarity_perm _).length_eq] at hc
    omega
  rw [htake, if_neg hne, (sortBySimilarity_perm _).length_eq]

/-- The tagged loose matches project back onto the filtered corpus. -/
theorem matchesAtThreshold_map_task (task : Task) (historical : List HistoricalTask)
    (t : ℚ) :
    (matchesAtThreshold (scoredTasksOf task historical) t).map SimilarityMatch.Task =
      historical.filter (fun h => t ≤ CalculateSimilarity task h) := by
  rw [matchesAtThreshold_scoredTasksOf, List.map_map]
  exact List.map_id _

/-- Claim C4. When fewer than the minimum match count of three corpus
entries score at or above the loosest threshold 0.15 (and the configured
maximum is not smaller than the minimum, as in the default configuration),
the retriever returns exactly the set of corpus entries scoring at least
0.15, possibly empty, and the context reports as HighestSimilarity a bound
attained on the corpus: the true brute-force maximum of the scores. The
corpus is assumed free of entries without a source record, on which the
source retriever would crash. -/
theorem adaptiveRetriever_loose_fallback (task : Task) (historical : List HistoricalTask)
    (config : EstimationConfig)
    (hsrc : ∀ h ∈ historical, h.Issue ≠ none)
    (hmax : 3 ≤ config.MaxSimilarTasks)
    (hfew : (historical.filter (fun h => (3:ℚ)/20 ≤ CalculateSimilarity task h)).length < 3) :
    List.Perm ((FindSimilarTasksAdaptive task historical config).1.map SimilarityMatch.Task)
      (historical.filter (fun h => (3:ℚ)/20 ≤ CalculateSimilarity task h)) ∧
    (∀ h ∈ historical, CalculateSimilarity task h ≤
      (FindSimilarTasksAdaptive task historical config).2.HighestSimilarity) ∧
    (historical ≠ [] →
      (FindSimilarTasksAdaptive task historical config).2.HighestSimilarity ∈
        historical.map (CalculateSimilarity task)) := by
  have hlen : (matchesAtThreshold (scoredTasksOf task historical) (3/20)).length =
      (historical.filter (fun h => (3:ℚ)/20 ≤ CalculateSimilarity task h)).length := by
    rw [matchesAtThreshold_scoredTasksOf, List.length_map]
  by_cases h0 : 0 < (matchesAtThreshold (scoredTasksOf task historical) (3/20)).length
  · rw [findAdaptive_of_few_pos task historical config hmax (by omega) h0]
    refine ⟨?_, ?_, ?_⟩
    · refine List.Perm.trans (List.Perm.map _ (sortBySimilarity_perm _)) ?_
      rw [matchesAtThreshold_map_task]
    · exact maxSimilarityOf_ub task historical
    · exact maxSimilarityOf_mem task historical
  · rw [findAdaptive_of_none task historical config (by omega)]
    refine ⟨?_, ?_, ?_⟩
    · have : (historical.filter (fun h => (3:ℚ)/20 ≤ CalculateSimilarity task h)) = [] := by
        rw [← List.length_eq_zero]
        omega
      rw [this]
      exact List.Perm.nil
    · exact maxSimilarityOf_ub task historical
    · exact maxSimilarityOf_mem task historical

/-- Claim C10. When no corpus entry reaches even the loosest threshold
0.15, the context reports the configured MinSimilarityThreshold (not the
0.15 actually tried last), zero matches found, and a HighestSimilarity
equal to the true brute-force maximum of the scores. The corpus is assumed
free of entries without a source record, on which the source retriever
would crash. -/
theorem adaptiveRetriever_zero_matches (task : Task) (historical : List HistoricalTask)
    (config : EstimationConfig)
    (hsrc : ∀ h ∈ historical, h.Issue ≠ none)
    (hnone : ∀ h ∈ historical, CalculateSimilarity task h < 3/20) :
    (FindSimilarTasksAdaptive task historical config).1 = [] ∧
    (FindSimilarTasksAdaptive task historical config).2.ThresholdUsed =
      config.MinSimilarityThreshold ∧
    (FindSimilarTasksAdaptive task historical config).2.MatchesFound = 0 ∧
    (∀ h ∈ historical, CalculateSimilarity task h ≤
      (FindSimilarTasksAdaptive task historical config).2.HighestSimilarity) ∧
    (historical ≠ [] →
      (FindSimilarTasksAdaptive task historical config).2.HighestSimilarity ∈
        historical.map (CalculateSimilarity task)) := by
  have hfilter : (historical.filter (fun h => (3:ℚ)/20 ≤ CalculateSimilarity task h)) = [] := by
    rw [List.filter_eq_nil_iff]
    intro h hh
    simpa using not_le.mpr (hnone h hh)
  have hlen0 : (matchesAtThreshold (scoredTasksOf task historical) (3/20)).length = 0 := by
    rw [matchesAtThreshold_scoredTasksOf, List.length_map, hfilter]
    rfl
  rw [findAdaptive_of_none task historical config hlen0]
  exact ⟨rfl, rfl, rfl, maxSimilarityOf_ub task historical,
    maxSimilarityOf_mem task historical⟩

theorem adaptiveLoop_append_skip (scoredTasks : List ScoredTask) (minD maxM : Nat)
    (lastT : ℚ) (pre ts : List ℚ)
    (hpre : ∀ t ∈ pre, (matchesAtThreshold scoredTasks t).length < minD)
    (hpre_ne : ∀ t ∈ pre, t ≠ lastT) :
    adaptiveLoop scoredTasks minD maxM lastT (pre ++ ts) =
      ((adaptiveLoop scoredTasks minD maxM lastT ts).1,
        (adaptiveLoop scoredTasks minD maxM lastT ts).2 + pre.length) := by
  induction pre with
  | nil => simp
  | cons t rest ih =>
    rw [List.cons_append,
      adaptiveLoop_cons_skip _ _ _ _ _ _ (hpre t (List.mem_cons_self t rest))
        (hpre_ne t (List.mem_cons_self t rest)),
      ih (fun x hx => hpre x (List.mem_cons_of_mem t hx))
        (fun x hx => hpre_ne x (List.mem_cons_of_mem t hx))]
    simp [Nat.add_comm, Nat.add_assoc, Nat.add_left_comm]

/-- Any proper prefix of the threshold ladder avoids the loosest value. -/
theorem ladder_pre_ne (pre : List ℚ) (t0 : ℚ) (post : List ℚ)
    (hths : adaptiveThresholds = pre ++ t0 :: post) :
    ∀ t ∈ pre, t ≠ 3/20 := by
  intro t ht hteq
  subst hteq
  have hnd : adaptiveThresholds.Nodup := by norm_num [adaptiveThresholds]
  rw [hths] at hnd
  have hdisj := (List.nodup_append.mp hnd).2.2
  have hmem2 : (3:ℚ)/20 ∈ t0 :: post := by
    have hlast : (pre ++ t0 :: post).getLast? = some (3/20) := by
      rw [← hths]
      rfl
    have hlast2 : (t0 :: post).getLast? = some (3/20) :=
      (List.getLast?_append_of_ne_nil pre (List.cons_ne_nil t0 post)).symm.trans hlast
    obtain ⟨hnil, hx⟩ := List.mem_getLast?_eq_getLast (Option.mem_def.mpr hlast2)
    rw [hx]
    exact List.getLast_mem hnil
  exact hdisj ht hmem2

/-- Retriever outcome when a threshold of the ladder is the first to reach
the minimum desired match count: that threshold is selected and its sorted
match list, truncated to the configured maximum, is returned. -/
theorem findAdaptive_of_hit (task : Task) (historical : List HistoricalTask)
    (config : EstimationConfig) (t0 : ℚ) (pre post : List ℚ)
    (hths : adaptiveThresholds = pre ++ t0 :: post)
    (hpre : ∀ t ∈ pre, (matchesAtThreshold (scoredTasksOf task historical) t).length < 3)
    (hhit : 3 ≤ (matchesAtThreshold (scoredTasksOf task historical) t0).length)
    (hmaxpos : 0 < config.MaxSimilarTasks) :
    FindSimilarTasksAdaptive task historical config =
      ((sortBySimilarity (matchesAtThreshold (scoredTasksOf task historical) t0)).take
          config.MaxSimilarTasks,
        SimilarityContext.mk t0 (pre.length + 1) historical.length
          ((sortBySimilarity (matchesAtThreshold (scoredTasksOf task historical) t0)).take
            config.MaxSimilarTasks).length
          (maxSimilarityOf task historical)) := by
  simp only [FindSimilarTasksAdaptive]
  rw [show adaptiveThresholds.getLastD 0 = 3/20 from rfl]
  rw [hths, adaptiveLoop_append_skip _ _ _ _ _ _ hpre (ladder_pre_ne pre t0 post hths),
    adaptiveLoop_cons_hit _ _ _ _ _ _ hhit]
  dsimp only
  have hne : (sortBySimilarity (matchesAtThreshold (scoredTasksOf task historical)
      t0)).take config.MaxSimilarTasks ≠ [] := by
    rw [Ne, List.take_eq_nil_iff]
    push_neg
    refine ⟨by omega, ?_⟩
    intro hc
    rw [← List.length_eq_zero, (sortBySimilarity_perm _).length_eq] at hc
    omega
  rw [if_neg hne]
  simp [Nat.add_comm]

/-- Claim C9 (amended). When some threshold of the ladder is the first to
yield at least the minimum match count of three, the retriever selects it
and returns the entries scoring at or above it, ordered by non-increasing
score and truncated to the configured maximum; each returned match carries
its entry's score. The tie order among equal scores is the one produced by
the swap sort of the source, which is not the original corpus order. The
corpus is assumed free of entries without a source record, on which the
source retriever would crash. -/
theorem adaptiveRetriever_first_hit (task : Task) (historical : List HistoricalTask)
    (config : EstimationConfig) (t0 : ℚ) (pre post : List ℚ)
    (hsrc : ∀ h ∈ historical, h.Issue ≠ none)
    (hths : adaptiveThresholds = pre ++ t0 :: post)
    (hpre : ∀ t ∈ pre,
      (historical.filter (fun h => t ≤ CalculateSimilarity task h)).length < 3)
    (hhit : 3 ≤ (historical.filter (fun h => t0 ≤ CalculateSimilarity task h)).length)
    (hmaxpos : 0 < config.MaxSimilarTasks) :
    (FindSimilarTasksAdaptive task historical config).2.ThresholdUsed = t0 ∧
    ∃ full : List SimilarityMatch,
      List.Perm (full.map SimilarityMatch.Task)
        (historical.filter (fun h => t0 ≤ CalculateSimilarity task h)) ∧
      List.Sorted (fun a b : SimilarityMatch => b.Similarity ≤ a.Similarity) full ∧
      (∀ sm ∈ full, sm.Similarity = CalculateSimilarity task sm.Task) ∧
      (FindSimilarTasksAdaptive task historical config).1 =
        full.take config.MaxSimilarTasks := by
  have hconv : ∀ t : ℚ, (matchesAtThreshold (scoredTasksOf task historical) t).length =
      (historical.filter (fun h => t ≤ CalculateSimilarity task h)).length := by
    intro t
    rw [matchesAtThreshold_scoredTasksOf, List.length_map]
  rw [findAdaptive_of_hit task historical config t0 pre post hths
    (fun t ht => by rw [hconv]; exact hpre t ht) (by rw [hconv]; exact hhit) hmaxpos]
  refine ⟨rfl, sortBySimilarity (matchesAtThreshold (scoredTasksOf task historical) t0),
    ?_, sortBySimilarity_sorted _, ?_, rfl⟩
  · have hp := List.Perm.map SimilarityMatch.Task
      (sortBySimilarity_perm (matchesAtThreshold (scoredTasksOf task historical) t0))
    rw [matchesAtThreshold_map_task] at hp
    exact hp
  · intro sm hsm
    have hmem : sm ∈ matchesAtThreshold (scoredTasksOf task historical) t0 :=
      (sortBySimilarity_perm _).subset hsm
    rw [matchesAtThreshold_scoredTasksOf] at hmem
    obtain ⟨h, hh, rfl⟩ := List.mem_map.mp hmem
    rfl

/-!
Concrete corpus used to settle claims C4, C9 and C10: a task titled
alpha beta against entries whose titles overlap it by half (two ways),
not at all, or completely. Both sides carry no labels, so the label
sub-score is a perfect match and the loose entries land at score 5/9.
-/

def c9task : Task := Task.mk "alpha beta" "" [] []

def c9A : HistoricalTask :=
  HistoricalTask.mk (some (GitHubIssue.mk "alpha gamma" "" "closed" [] [])) 1 "S" 1

def c9B : HistoricalTask :=
  HistoricalTask.mk (some (GitHubIssue.mk "beta delta" "" "closed" [] [])) 2 "M" 2

def c9C : HistoricalTask :=
  HistoricalTask.mk (some (GitHubIssue.mk "" "" "closed" [] [])) 3 "L" 3

def c9D : HistoricalTask :=
  HistoricalTask.mk (some (GitHubIssue.mk "alpha beta" "" "closed" [] [])) 4 "XL" 4

def c9corpus : List HistoricalTask := [c9A, c9B, c9C, c9D]

theorem c9_score_A : CalculateSimilarity c9task c9A = 5/9 := by
  norm_num +decide [CalculateSimilarity, c9task, c9A, calculateTextSimilarity,
    normalizeText, extractWords, jaccardSimilarity, calculateLabelSimilarity,
    strToLower, strTrim, fieldsOf, fieldsAux, extractLabels]

theorem c9_score_B : CalculateSimilarity c9task c9B = 5/9 := by
  norm_num +decide [CalculateSimilarity, c9task, c9B, calculateTextSimilarity,
    normalizeText, extractWords, jaccardSimilarity, calculateLabelSimilarity,
    strToLower, strTrim, fieldsOf, fieldsAux, extractLabels]

theorem c9_score_C : CalculateSimilarity c9task c9C = 1/3 := by
  norm_num +decide [CalculateSimilarity, c9task, c9C, calculateTextSimilarity,
    normalizeText, extractWords, jaccardSimilarity, calculateLabelSimilarity,
    strToLower, strTrim, fieldsOf, fieldsAux, extractLabels]

theorem c9_score_D : CalculateSimilarity c9task c9D = 1 := by
  norm_num +decide [CalculateSimilarity, c9task, c9D, calculateTextSimilarity,
    normalizeText, extractWords, jaccardSimilarity, calculateLabelSimilarity,
    strToLower, strTrim, fieldsOf, fieldsAux, extractLabels]

theorem c9_filter_half :
    c9corpus.filter (fun h => (1:ℚ)/2 ≤ CalculateSimilarity c9task h) =
      [c9A, c9B, c9D] := by
  simp only [c9corpus, List.filter_cons, List.filter_nil,
    c9_score_A, c9_score_B, c9_score_C, c9_score_D]
  norm_num

theorem c9_matches_half :
    matchesAtThreshold (scoredTasksOf c9task c9corpus) (1/2) =
      [SimilarityMatch.mk c9A (5/9) (identifyMatches c9task c9A),
       SimilarityMatch.mk c9B (5/9) (identifyMatches c9task c9B),
       SimilarityMatch.mk c9D 1 (identifyMatches c9task c9D)] := by
  rw [matchesAtThreshold_scoredTasksOf, c9_filter_half]
  simp [c9_score_A, c9_score_B, c9_score_D]

theorem c9_sorted_half :
    sortBySimilarity
      [SimilarityMatch.mk c9A (5/9) (identifyMatches c9task c9A),
       SimilarityMatch.mk c9B (5/9) (identifyMatches c9task c9B),
       SimilarityMatch.mk c9D 1 (identifyMatches c9task c9D)] =
      [SimilarityMatch.mk c9D 1 (identifyMatches c9task c9D),
       SimilarityMatch.mk c9B (5/9) (identifyMatches c9task c9B),
       SimilarityMatch.mk c9A (5/9) (identifyMatches c9task c9A)] := by
  norm_num [sortBySimilarity, goSortRun, goSortAux, goSortPass]

/-- Counterexample to claim C9 as stated. On the concrete corpus the
first threshold to reach three matches is 0.5; the entries at positions
0 and 1 of the corpus tie at score 5/9, yet the returned list orders the
later entry before the earlier one, so ties are not broken by original
corpus order. -/
theorem adaptiveRetriever_tie_counterexample :
    CalculateSimilarity c9task c9A = CalculateSimilarity c9task c9B ∧
    c9corpus = [c9A, c9B, c9C, c9D] ∧
    ((FindSimilarTasksAdaptive c9task c9corpus DefaultEstimationConfig).1.map
      SimilarityMatch.Task) = [c9D, c9B, c9A] ∧
    [c9D, c9B, c9A] ≠ [c9D, c9A, c9B] := by
  refine ⟨by rw [c9_score_A, c9_score_B], rfl, ?_, ?_⟩
  · rw [findAdaptive_of_hit c9task c9corpus DefaultEstimationConfig (1/2) []
      [2/5, 3/10, 1/5, 3/20] rfl (by simp)
      (by rw [matchesAtThreshold_scoredTasksOf, List.length_map, c9_filter_half]; norm_num)
      (by norm_num [DefaultEstimationConfig])]
    rw [c9_matches_half, c9_sorted_half]
    simp [DefaultEstimationConfig, c9A, c9B, c9C, c9D]
  · intro hc
    have : c9B = c9A := by
      injection hc with h1 h2
      injection h2
    simp [c9A, c9B] at this

/-- Witness for adaptiveRetriever_first_hit on the concrete corpus: the
threshold 0.5 is hit first with three matches. -/
theorem adaptiveRetriever_first_hit_witness :
    (∀ h ∈ c9corpus, h.Issue ≠ none) ∧
    3 ≤ (c9corpus.filter (fun h => (1:ℚ)/2 ≤ CalculateSimilarity c9task h)).length ∧
    ((FindSimilarTasksAdaptive c9task c9corpus DefaultEstimationConfig).2.ThresholdUsed =
      1/2 ∧
    ∃ full : List SimilarityMatch,
      List.Perm (full.map SimilarityMatch.Task)
        (c9corpus.filter (fun h => (1:ℚ)/2 ≤ CalculateSimilarity c9task h)) ∧
      List.Sorted (fun a b : SimilarityMatch => b.Similarity ≤ a.Similarity) full ∧
      (∀ sm ∈ full, sm.Similarity = CalculateSimilarity c9task sm.Task) ∧
      (FindSimilarTasksAdaptive c9task c9corpus DefaultEstimationConfig).1 =
        full.take DefaultEstimationConfig.MaxSimilarTasks) := by
  have hsrc : ∀ h ∈ c9corpus, h.Issue ≠ none := by
    intro h hh
    fin_cases hh <;> simp [c9A, c9B, c9C, c9D]
  have hhit : 3 ≤ (c9corpus.filter (fun h =>
      (1:ℚ)/2 ≤ CalculateSimilarity c9task h)).length := by
    rw [c9_filter_half]
    norm_num
  exact ⟨hsrc, hhit,
    adaptiveRetriever_first_hit c9task c9corpus DefaultEstimationConfig (1/2) []
      [2/5, 3/10, 1/5, 3/20] hsrc rfl (by simp) hhit
      (by norm_num [DefaultEstimationConfig])⟩

/-- Witness for adaptiveRetriever_loose_fallback: a single corpus entry
scoring one third, above the loosest threshold but alone. -/
theorem adaptiveRetriever_loose_fallback_witness :
    (∀ h ∈ [c9C], h.Issue ≠ none) ∧
    3 ≤ DefaultEstimationConfig.MaxSimilarTasks ∧
    ([c9C].filter (fun h => (3:ℚ)/20 ≤ CalculateSimilarity c9task h)).length < 3 ∧
    (List.Perm ((FindSimilarTasksAdaptive c9task [c9C] DefaultEstimationConfig).1.map
        SimilarityMatch.Task)
      ([c9C].filter (fun h => (3:ℚ)/20 ≤ CalculateSimilarity c9task h)) ∧
    (∀ h ∈ [c9C], CalculateSimilarity c9task h ≤
      (FindSimilarTasksAdaptive c9task [c9C] DefaultEstimationConfig).2.HighestSimilarity) ∧
    ([c9C] ≠ ([] : List HistoricalTask) →
      (FindSimilarTasksAdaptive c9task [c9C] DefaultEstimationConfig).2.HighestSimilarity ∈
        [c9C].map (CalculateSimilarity c9task))) := by
  have hsrc : ∀ h ∈ [c9C], h.Issue ≠ none := by
    intro h hh
    simp only [List.mem_cons, List.not_mem_nil, or_false] at hh
    subst hh
    simp [c9C]
  have hmax : 3 ≤ DefaultEstimationConfig.MaxSimilarTasks := by
    norm_num [DefaultEstimationConfig]
  have hfew : ([c9C].filter (fun h =>
      (3:ℚ)/20 ≤ CalculateSimilarity c9task h)).length < 3 := by
    simp only [List.filter_cons, List.filter_nil, c9_score_C]
    norm_num
  exact ⟨hsrc, hmax, hfew,
    adaptiveRetriever_loose_fallback c9task [c9C] DefaultEstimationConfig hsrc hmax hfew⟩

/-- Concrete no-match scenario for claim C10: the task carries a label,
the entry none, and the titles share no word, so the score is zero. -/
def c10task : Task := Task.mk "alpha beta" "" ["x"] []

def c10E : HistoricalTask :=
  HistoricalTask.mk (some (GitHubIssue.mk "gamma delta" "" "closed" [] [])) 1 "S" 1

theorem c10_score_E : CalculateSimilarity c10task c10E = 0 := by
  norm_num +decide [CalculateSimilarity, c10task, c10E, calculateTextSimilarity,
    normalizeText, extractWords, jaccardSimilarity, calculateLabelSimilarity,
    strToLower, strTrim, fieldsOf, fieldsAux, extractLabels]

/-- Witness for adaptiveRetriever_zero_matches: a one-entry corpus whose
only score is zero. -/
theorem adaptiveRetriever_zero_matches_witness :
    (∀ h ∈ [c10E], h.Issue ≠ none) ∧
    (∀ h ∈ [c10E], CalculateSimilarity c10task h < 3/20) ∧
    ((FindSimilarTasksAdaptive c10task [c10E] DefaultEstimationConfig).1 = [] ∧
    (FindSimilarTasksAdaptive c10task [c10E] DefaultEstimationConfig).2.ThresholdUsed =
      DefaultEstimationConfig.MinSimilarityThreshold ∧
    (FindSimilarTasksAdaptive c10task [c10E] DefaultEstimationConfig).2.MatchesFound = 0 ∧
    (∀ h ∈ [c10E], CalculateSimilarity c10task h ≤
      (FindSimilarTasksAdaptive c10task [c10E] DefaultEstimationConfig).2.HighestSimilarity) ∧
    ([c10E] ≠ ([] : List HistoricalTask) →
      (FindSimilarTasksAdaptive c10task [c10E] DefaultEstimationConfig).2.HighestSimilarity ∈
        [c10E].map (CalculateSimilarity c10task))) := by
  have hsrc : ∀ h ∈ [c10E], h.Issue ≠ none := by
    intro h hh
    simp only [List.mem_cons, List.not_mem_nil, or_false] at hh
    subst hh
    simp [c10E]
  have hnone : ∀ h ∈ [c10E], CalculateSimilarity c10task h < 3/20 := by
    intro h hh
    simp only [List.mem_cons, List.not_mem_nil, or_false] at hh
    subst hh
    rw [c10_score_E]
    norm_num
  exact ⟨hsrc, hnone,
    adaptiveRetriever_zero_matches c10task [c10E] DefaultEstimationConfig hsrc hnone⟩

/-!
Claim C3: which payloads the provider-response validation rejects.
-/

/-- A structurally complete response with zero hours and an empty size
code; the validation of the source accepts it. -/
def c3resp : EstimationResponse :=
  EstimationResponse.mk 0 "" 1 (1/2) "ok" [] [] ""

/-- Counterexample to claim C3 as stated: a payload with estimated hours
equal to 0 (non-positive) and a size code outside the five-value enum (the
empty string) passes validation, so validation does not fail exactly on
the conditions the claim lists. -/
theorem providerValidation_counterexample :
    c3resp.EstimatedHours ≤ 0 ∧
    c3resp.EstimatedSize ∉ validSizes ∧
    validateEstimationResponse c3resp = none ∧
    parseEstimationChecked c3resp = Except.ok c3resp := by
  refine ⟨by norm_num [c3resp], by decide, ?_, ?_⟩
  · norm_num +decide [validateEstimationResponse, c3resp, validSizes]
  · rw [parseEstimationChecked]
    norm_num +decide [validateEstimationResponse, c3resp, validSizes]

/-- Claim C3 (amended). Validation of a decoded provider response fails
exactly when the estimated hours are negative, the story points are
negative, the confidence lies outside the closed unit interval, the size
code is nonempty and outside the five-value enum, or the reasoning is
missing; in particular a response with estimated hours equal to minus one
is always rejected, and an accepted response is returned unchanged, never
clamped. -/
theorem providerValidation_spec (resp : EstimationResponse) :
    ((validateEstimationResponse resp).isSome ↔
      (resp.EstimatedHours < 0 ∨ resp.StoryPoints < 0 ∨
        resp.ConfidenceScore < 0 ∨ 1 < resp.ConfidenceScore ∨
        (resp.EstimatedSize ≠ "" ∧ resp.EstimatedSize ∉ validSizes) ∨
        resp.Reasoning = "")) ∧
    (resp.EstimatedHours = -1 →
      ∃ e, parseEstimationChecked resp = Except.error e) ∧
    (∀ out, parseEstimationChecked resp = Except.ok out → out = resp) := by
  refine ⟨?_, ?_, ?_⟩
  · unfold validateEstimationResponse
    split_ifs with h1 h2 h3 h4 h5 <;> simp_all <;> tauto
  · intro hm1
    unfold parseEstimationChecked validateEstimationResponse
    rw [if_pos (by rw [hm1]; norm_num)]
    exact ⟨_, rfl⟩
  · intro out hout
    unfold parseEstimationChecked at hout
    cases hval : validateEstimationResponse resp with
    | some e =>
      rw [hval] at hout
      simp at hout
    | none =>
      rw [hval] at hout
      simpa using hout.symm

/-- A response with estimated hours minus one used by the witness. -/
def c3bad : EstimationResponse :=
  EstimationResponse.mk (-1) "M" 1 (1/2) "ok" [] [] ""

/-- Witness for providerValidation_spec: hours minus one is rejected. -/
theorem providerValidation_spec_witness :
    c3bad.EstimatedHours = -1 ∧
    ∃ e, parseEstimationChecked c3bad = Except.error e :=
  ⟨rfl, (providerValidation_spec c3bad).2.1 rfl⟩

/-!
Claim C7: the MedianHours aggregate of the batch report. Here the spec
and the function's own name and comment promise a median; the body
computes an arithmetic mean.
-/

/-- Brute-force median of a list of rationals via a full sort: the middle
element, or the mean of the two middle elements when even. Spec-side
definition, compared against the batch code. -/
def bruteMedianSpec (l : List ℚ) : ℚ :=
  sortedMedian (l.insertionSort (· ≤ ·))

/-- A successful batch result with the given id and estimated hours. -/
def c7res (i : String) (q : ℚ) : BatchResult :=
  BatchResult.mk (BatchTask.mk i "task" "" [] [] "" "")
    (some (EstimationResult.mk (Task.mk "task" "" [] [])
      (some (EstimationResponse.mk q "M" 1 (8/10) "r" [] [] ""))
      [] "ai" "openai" none none))
    none

/-- Claim C7 exhibit: on three successful tasks with estimated hours 1, 2
and 9, the report's MedianHours aggregate is the mean 4, not the true
median 2 that the claim, the field name and the source comment promise. -/
theorem batchMedian_is_mean_bug :
    (calculateStatistics [c7res "1" 1, c7res "2" 2, c7res "3" 9]).MedianHours = 4 ∧
    bruteMedianSpec [1, 2, 9] = 2 ∧
    (calculateStatistics [c7res "1" 1, c7res "2" 2, c7res "3" 9]).MedianHours ≠
      bruteMedianSpec [1, 2, 9] := by
  have h1 : (calculateStatistics [c7res "1" 1, c7res "2" 2, c7res "3" 9]).MedianHours = 4 := by
    norm_num +decide [calculateStatistics, batchStatsStep, BatchAccum.init, c7res,
      calculateMedian, mapIncr, mapAddQ, findMin, findMax]
  have h2 : bruteMedianSpec [1, 2, 9] = 2 := by
    norm_num [bruteMedianSpec, sortedMedian, List.insertionSort, List.orderedInsert]
  refine ⟨h1, h2, ?_⟩
  rw [h1, h2]
  norm_num

/-!
Claim C6: the statistics summarizer against brute-force recomputation.
-/

/-- The hours the summarizer collects: those of the entries with positive
actual hours, in corpus order. -/
def posHours (historical : List HistoricalTask) : List ℚ :=
  (historical.filter (fun h => 0 < h.ActualHours)).map HistoricalTask.ActualHours

theorem statsLabelFold_hours (hist : HistoricalTask) (issue : GitHubIssue)
    (labels : List Label) (acc : StatsAccum) :
    (labels.foldl (statsLabelStep hist issue) acc).hours = acc.hours ∧
    (labels.foldl (statsLabelStep hist issue) acc).totalHours = acc.totalHours ∧
    (labels.foldl (statsLabelStep hist issue) acc).hoursCount = acc.hoursCount := by
  induction labels generalizing acc with
  | nil => exact ⟨rfl, rfl, rfl⟩
  | cons lb rest ih =>
    rw [List.foldl_cons]
    obtain ⟨i1, i2, i3⟩ := ih (statsLabelStep hist issue acc lb)
    have hstep : (statsLabelStep hist issue acc lb).hours = acc.hours ∧
        (statsLabelStep hist issue acc lb).totalHours = acc.totalHours ∧
        (statsLabelStep hist issue acc lb).hoursCount = acc.hoursCount := by
      simp only [statsLabelStep]
      split <;> split <;> exact ⟨rfl, rfl, rfl⟩
    exact ⟨i1.trans hstep.1, i2.trans hstep.2.1, i3.trans hstep.2.2⟩

theorem statsStep_hours (acc : StatsAccum) (hist : HistoricalTask) :
    (statsStep acc hist).hours =
      acc.hours ++ (if 0 < hist.ActualHours then [hist.ActualHours] else []) ∧
    (statsStep acc hist).totalHours =
      acc.totalHours + (if 0 < hist.ActualHours then hist.ActualHours else 0) ∧
    (statsStep acc hist).hoursCount =
      acc.hoursCount + (if 0 < hist.ActualHours then 1 else 0) := by
  unfold statsStep
  cases hI : hist.Issue with
  | none =>
    simp only
    split <;> split <;> split <;> simp
  | some issue =>
    simp only
    obtain ⟨h1, h2, h3⟩ := statsLabelFold_hours hist issue issue.Labels
      (if hist.EstimatedSize ≠ "" then _ else _)
    rw [h1, h2, h3]
    split <;> split <;> split <;> simp

theorem statsFold_hours (historical : List HistoricalTask) (acc : StatsAccum) :
    (historical.foldl statsStep acc).hours = acc.hours ++ posHours historical ∧
    (historical.foldl statsStep acc).totalHours = acc.totalHours + (posHours historical).sum ∧
    (historical.foldl statsStep acc).hoursCount =
      acc.hoursCount + (posHours historical).length := by
  induction historical generalizing acc with
  | nil => simp [posHours]
  | cons x xs ih =>
    rw [List.foldl_cons]
    obtain ⟨i1, i2, i3⟩ := ih (statsStep acc x)
    obtain ⟨s1, s2, s3⟩ := statsStep_hours acc x
    rw [i1, i2, i3, s1, s2, s3]
    by_cases hx : 0 < x.ActualHours <;>
      simp [posHours, hx, List.filter_cons, add_assoc, add_comm, add_left_comm]

/-- The ascending swap sort of the source agrees with the insertion sort
of the library: both are sorted permutations, and sorted permutations of
rationals coincide. -/
theorem goSortRun_asc_eq_insertionSort (l : List ℚ) :
    goSortRun (fun x cur => decide (x < cur)) l = l.insertionSort (· ≤ ·) := by
  refine List.eq_of_perm_of_sorted
    ((goSortRun_perm _ l).trans (List.perm_insertionSort _ l).symm) ?_
    (List.sorted_insertionSort _ l)
  refine goSortRun_sorted _ _ ?_ ?_ ?_ ?_ l
  · intro x c h
    exact le_of_lt (of_decide_eq_true h)
  · intro x c h
    exact not_lt.mp (of_decide_eq_false h)
  · intro a b c h1 h2
    exact le_trans h1 h2
  · intro a
    exact le_rfl

/-- Spec-side percentile values: index floor((n-1)p) into the fully sorted
hours for the five fractions, computed with the library sort. -/
def percentileSpec (l : List ℚ) : List ℚ :=
  percentileFractions.map (fun p =>
    (l.insertionSort (· ≤ ·)).getD ((((l.length : ℚ) - 1) * p).floor.toNat) 0)

/-- The floor of the rational library agrees with the floor of the order
library on rationals. -/
theorem ratFloor_eq_intFloor (q : ℚ) : q.floor = ⌊q⌋ := rfl

theorem percentile_idx_le (n : Nat) (hn : 0 < n) (p : ℚ) (hp1 : p ≤ 1) :
    (((n : ℚ) - 1) * p).floor.toNat ≤ n - 1 := by
  rw [ratFloor_eq_intFloor]
  have hn1 : (0:ℚ) ≤ (n : ℚ) - 1 := by
    have h1 : (1:ℚ) ≤ (n : ℚ) := by exact_mod_cast hn
    linarith
  have hle : ((n : ℚ) - 1) * p ≤ (n : ℚ) - 1 := mul_le_of_le_one_right hn1 hp1
  have hfle : ⌊((n : ℚ) - 1) * p⌋ ≤ ⌊(n : ℚ) - 1⌋ := Int.floor_le_floor hle
  have hfl : ⌊(n : ℚ) - 1⌋ = (n : ℤ) - 1 := by
    rw [show ((n : ℚ) - 1) = (((n : ℤ) - 1 : ℤ) : ℚ) by push_cast; ring]
    exact Int.floor_intCast _
  omega

theorem percentile_idx_mono (n : Nat) (p q : ℚ) (hp0 : 0 ≤ p) (hpq : p ≤ q) :
    (((n : ℚ) - 1) * p).floor.toNat ≤ (((n : ℚ) - 1) * q).floor.toNat := by
  rw [ratFloor_eq_intFloor, ratFloor_eq_intFloor]
  rcases le_or_lt ((n : ℚ) - 1) 0 with hn | hn
  · have h1 : ((n : ℚ) - 1) * p ≤ 0 := mul_nonpos_of_nonpos_of_nonneg hn hp0
    have h2 : ⌊((n : ℚ) - 1) * p⌋ ≤ 0 := by
      have := Int.floor_le_floor h1
      simpa using this
    omega
  · have hle : ((n : ℚ) - 1) * p ≤ ((n : ℚ) - 1) * q :=
      mul_le_mul_of_nonneg_left hpq (le_of_lt hn)
    have := Int.floor_le_floor hle
    omega

theorem sorted_getD_mono (l : List ℚ) (hs : List.Sorted (· ≤ ·) l)
    (i j : Nat) (hij : i ≤ j) (hj : j < l.length) :
    l.getD i 0 ≤ l.getD j 0 := by
  have hi : i < l.length := lt_of_le_of_lt hij hj
  rw [List.getD_eq_getElem l 0 hi, List.getD_eq_getElem l 0 hj]
  rcases Nat.lt_or_ge i j with hlt | hge
  · exact List.pairwise_iff_getElem.mp hs i j hi hj hlt
  · have : i = j := le_antisymm hij hge
    subst this
    exact le_rfl

/-- The five percentile values of a sorted nonempty list are
non-decreasing. -/
theorem percentileValues_chain (sorted : List ℚ)
    (hs : List.Sorted (· ≤ ·) sorted) (hne : sorted ≠ []) :
    List.Chain' (· ≤ ·) (percentileValues sorted) := by
  have hn : 0 < sorted.length := List.length_pos.mpr hne
  have key : ∀ p q : ℚ, 0 ≤ p → p ≤ q → q ≤ 1 →
      sorted.getD ((((sorted.length : ℚ) - 1) * p).floor.toNat) 0 ≤
        sorted.getD ((((sorted.length : ℚ) - 1) * q).floor.toNat) 0 := by
    intro p q hp0 hpq hq1
    refine sorted_getD_mono sorted hs _ _
      (percentile_idx_mono sorted.length p q hp0 hpq) ?_
    have := percentile_idx_le sorted.length hn q hq1
    omega
  simp only [percentileValues, percentileFractions, List.map_cons, List.map_nil]
  refine List.chain'_cons.mpr ⟨key _ _ (by norm_num) (by norm_num) (by norm_num), ?_⟩
  refine List.chain'_cons.mpr ⟨key _ _ (by norm_num) (by norm_num) (by norm_num), ?_⟩
  refine List.chain'_cons.mpr ⟨key _ _ (by norm_num) (by norm_num) (by norm_num), ?_⟩
  refine List.chain'_cons.mpr ⟨key _ _ (by norm_num) (by norm_num) (by norm_num), ?_⟩
  simp

theorem percentileValues_insertionSort (l : List ℚ) :
    percentileValues (l.insertionSort (· ≤ ·)) = percentileSpec l := by
  simp [percentileValues, percentileSpec, List.length_insertionSort]

/-- Claim C6. The statistics summarizer returns nothing on an empty
corpus; on a corpus with at least one positive-hours entry, the mean is
taken over the positive-hours entries only, the median equals the
brute-force median of those hours computed through a full sort, the five
percentile values sit at index floor of (n-1) times p of the sorted hours
for the five fractions, and those five values are non-decreasing. -/
theorem datasetStatistics_spec (historical : List HistoricalTask) :
    (historical = [] → calculateDatasetStatistics historical = none) ∧
    (∀ stats, calculateDatasetStatistics historical = some stats →
      posHours historical ≠ [] →
        stats.AvgHours = (posHours historical).sum / ((posHours historical).length : ℚ) ∧
        stats.MedianHours = bruteMedianSpec (posHours historical) ∧
        stats.PercentileHours = percentileSpec (posHours historical) ∧
        List.Chain' (· ≤ ·) stats.PercentileHours) := by
  constructor
  · intro h
    rw [calculateDatasetStatistics, if_pos h]
  · intro stats hsome hpos
    by_cases hne : historical = []
    · rw [calculateDatasetStatistics, if_pos hne] at hsome
      cases hsome
    · obtain ⟨f1, f2, f3⟩ := statsFold_hours historical StatsAccum.init
      have hhours : (historical.foldl statsStep StatsAccum.init).hours =
          posHours historical := by
        rw [f1]
        rfl
      have htot : (historical.foldl statsStep StatsAccum.init).totalHours =
          (posHours historical).sum := by
        rw [f2]
        simp [StatsAccum.init]
      have hcnt : (historical.foldl statsStep StatsAccum.init).hoursCount =
          (posHours historical).length := by
        rw [f3]
        simp [StatsAccum.init]
      have hcntpos : 0 < (historical.foldl statsStep StatsAccum.init).hoursCount := by
        rw [hcnt]
        exact List.length_pos.mpr hpos
      simp only [calculateDatasetStatistics, if_neg hne, Option.some_inj] at hsome
      rw [if_pos hcntpos] at hsome
      subst hsome
      have hsorted_ne : (posHours historical).insertionSort (· ≤ ·) ≠ [] := by
        intro hc
        have := congrArg List.length hc
        rw [List.length_insertionSort] at this
        exact hpos (List.length_eq_zero.mp this)
      refine ⟨?_, ?_, ?_, ?_⟩
      · rw [show (DatasetStatistics.AvgHours _) =
          (historical.foldl statsStep StatsAccum.init).totalHours /
            ((historical.foldl statsStep StatsAccum.init).hoursCount : ℚ) from rfl,
          htot, hcnt]
      · rw [show (DatasetStatistics.MedianHours _) =
          sortedMedian (goSortRun (fun x cur => decide (x < cur))
            (historical.foldl statsStep StatsAccum.init).hours) from rfl,
          hhours, goSortRun_asc_eq_insertionSort]
        rfl
      · rw [show (DatasetStatistics.PercentileHours _) =
          percentileValues (goSortRun (fun x cur => decide (x < cur))
            (historical.foldl statsStep StatsAccum.init).hours) from rfl,
          hhours, goSortRun_asc_eq_insertionSort, percentileValues_insertionSort]
      · rw [show (DatasetStatistics.PercentileHours _) =
          percentileValues (goSortRun (fun x cur => decide (x < cur))
            (historical.foldl statsStep StatsAccum.init).hours) from rfl,
          hhours, goSortRun_asc_eq_insertionSort]
        exact percentileValues_chain _ (List.sorted_insertionSort _ _) hsorted_ne

/-- Two-entry corpus with positive hours used by the summarizer witness. -/
def c6corpus : List HistoricalTask :=
  [HistoricalTask.mk (some (GitHubIssue.mk "one" "" "closed" [] [])) 2 "S" 1,
   HistoricalTask.mk (some (GitHubIssue.mk "two" "" "closed" [] [])) 4 "M" 2]

/-- Witness for datasetStatistics_spec on the two-entry corpus. -/
theorem datasetStatistics_spec_witness :
    posHours c6corpus ≠ [] ∧
    ∃ stats, calculateDatasetStatistics c6corpus = some stats ∧
      (stats.AvgHours = (posHours c6corpus).sum / ((posHours c6corpus).length : ℚ) ∧
       stats.MedianHours = bruteMedianSpec (posHours c6corpus) ∧
       stats.PercentileHours = percentileSpec (posHours c6corpus) ∧
       List.Chain' (· ≤ ·) stats.PercentileHours) := by
  have hpos : posHours c6corpus ≠ [] := by
    have heval : posHours c6corpus = [2, 4] := by
      norm_num [posHours, c6corpus, List.filter_cons]
    rw [heval]
    simp
  have hsome : ∃ stats, calculateDatasetStatistics c6corpus = some stats := by
    rw [calculateDatasetStatistics, if_neg (by simp [c6corpus])]
    exact ⟨_, rfl⟩
  obtain ⟨stats, hstats⟩ := hsome
  exact ⟨hpos, stats, hstats, (datasetStatistics_spec c6corpus).2 stats hstats hpos⟩

/-!
Claim C2: the batch report. The worker pool delivers the per-task results
in a schedule-dependent order; the theorem quantifies over any permutation
of the canonical per-task result list.
-/

/-- Any result skipped by the statistics loop is a no-op of the fold, so
statistics over all results equal statistics over the successes. -/
theorem batchStatsFold_filter (results : List BatchResult) (acc : BatchAccum) :
    results.foldl batchStatsStep acc =
      (results.filter (fun r => r.Error = none)).foldl batchStatsStep acc := by
  induction results generalizing acc with
  | nil => rfl
  | cons r rest ih =>
    rw [List.foldl_cons, List.filter_cons]
    by_cases he : r.Error = none
    · rw [if_pos (by simpa using he), List.foldl_cons]
      exact ih _
    · rw [if_neg (by simpa using he)]
      have hskip : batchStatsStep acc r = acc := by
        unfold batchStatsStep
        match hE : r.Error, hR : r.Result with
        | some e, _ => rfl
        | none, none => rfl
        | none, some res => exact absurd hE he
      rw [hskip]
      exact ih acc

theorem calculateStatistics_filter_success (results : List BatchResult) :
    calculateStatistics results =
      calculateStatistics (results.filter (fun r => r.Error = none)) := by
  unfold calculateStatistics
  rw [batchStatsFold_filter]

/-- Every per-task result keeps its task. -/
theorem processBatchResults_map_task (estimate : Task → Except String EstimationResult)
    (tasks : List BatchTask) :
    (processBatchResults estimate tasks).map BatchResult.Task = tasks := by
  unfold processBatchResults
  rw [List.map_map]
  refine List.map_congr_left ?_ |>.trans (List.map_id tasks)
  intro bt hbt
  unfold Function.comp runOneBatchTask
  cases estimate (batchTaskToTask bt) <;> rfl

/-- A per-task result records an error exactly when it has no result. -/
theorem runOneBatchTask_error_iff (estimate : Task → Except String EstimationResult)
    (bt : BatchTask) :
    ((runOneBatchTask estimate bt).Error = none ↔
      (runOneBatchTask estimate bt).Result ≠ none) ∧
    (runOneBatchTask estimate bt).Task = bt := by
  unfold runOneBatchTask
  cases estimate (batchTaskToTask bt) <;> simp

/-- Claim C2. For a batch of N tasks processed by the worker pool (any
pool size at least one, modelled by quantifying over the collection order
of the per-task results): the report carries exactly N results, declares
TotalTasks = N, its success and failure counts sum to N, the results cover
exactly the requested tasks, a failed task populates only its own error
field (error exactly when no result), the aggregate statistics equal the
statistics of the successful results alone, and each task's result is the
one computed from that task by the estimator, independent of the other
tasks. -/
theorem processBatch_report_spec (estimate : Task → Except String EstimationResult)
    (tasks : List BatchTask) (collected : List BatchResult)
    (hperm : List.Perm collected (processBatchResults estimate tasks)) :
    (mkBatchReport tasks collected).TotalTasks = tasks.length ∧
    (mkBatchReport tasks collected).Results.length = tasks.length ∧
    (mkBatchReport tasks collected).SuccessfulTasks +
      (mkBatchReport tasks collected).FailedTasks = tasks.length ∧
    List.Perm ((mkBatchReport tasks collected).Results.map BatchResult.Task) tasks ∧
    (∀ r ∈ (mkBatchReport tasks collected).Results,
      (r.Error = none ↔ r.Result ≠ none)) ∧
    (mkBatchReport tasks collected).Statistics =
      calculateStatistics (collected.filter (fun r => r.Error = none)) ∧
    (∀ i : Nat, (processBatchResults estimate tasks).get? i =
      (tasks.get? i).map (runOneBatchTask estimate)) := by
  have hlen : collected.length = tasks.length := by
    rw [hperm.length_eq, processBatchResults, List.length_map]
  refine ⟨rfl, hlen, ?_, ?_, ?_, calculateStatistics_filter_success collected, ?_⟩
  · show (collected.filter (fun r => r.Error = none)).length +
      (collected.filter (fun r => r.Error ≠ none)).length = tasks.length
    rw [← hlen]
    simp only [← List.countP_eq_length_filter]
    have := List.length_eq_countP_add_countP (fun r : BatchResult =>
      decide (r.Error = none)) collected
    rw [this]
    congr 1
    refine List.countP_congr ?_
    intro r hr
    simp
  · show List.Perm (collected.map BatchResult.Task) tasks
    have hp := hperm.map BatchResult.Task
    rw [processBatchResults_map_task] at hp
    exact hp
  · intro r hr
    have hmem : r ∈ processBatchResults estimate tasks := hperm.subset hr
    unfold processBatchResults at hmem
    obtain ⟨bt, _, rfl⟩ := List.mem_map.mp hmem
    exact (runOneBatchTask_error_iff estimate bt).1
  · intro i
    simp [processBatchResults]

/-- Concrete three-task batch whose second task fails, used by the batch
report witness. -/
def c2tasks : List BatchTask :=
  [BatchTask.mk "1" "t1" "" [] [] "" "",
   BatchTask.mk "2" "t2" "" [] [] "" "",
   BatchTask.mk "3" "t3" "" [] [] "" ""]

/-- Estimator oracle for the witness: fails exactly on the task titled t2. -/
def c2est : Task → Except String EstimationResult := fun t =>
  if t.Title = "t2" then Except.error "provider failure"
  else Except.ok (EstimationResult.mk t
    (some (EstimationResponse.mk 5 "M" 3 (8/10) "ok" [] [] "")) [] "ai" "openai" none none)

/-- Witness for processBatch_report_spec: the canonical collection order
of the three-task batch. -/
theorem processBatch_report_spec_witness :
    List.Perm (processBatchResults c2est c2tasks) (processBatchResults c2est c2tasks) ∧
    ((mkBatchReport c2tasks (processBatchResults c2est c2tasks)).TotalTasks =
      c2tasks.length ∧
    (mkBatchReport c2tasks (processBatchResults c2est c2tasks)).Results.length =
      c2tasks.length ∧
    (mkBatchReport c2tasks (processBatchResults c2est c2tasks)).SuccessfulTasks +
      (mkBatchReport c2tasks (processBatchResults c2est c2tasks)).FailedTasks =
        c2tasks.length ∧
    List.Perm ((mkBatchReport c2tasks (processBatchResults c2est c2tasks)).Results.map
      BatchResult.Task) c2tasks ∧
    (∀ r ∈ (mkBatchReport c2tasks (processBatchResults c2est c2tasks)).Results,
      (r.Error = none ↔ r.Result ≠ none)) ∧
    (mkBatchReport c2tasks (processBatchResults c2est c2tasks)).Statistics =
      calculateStatistics ((processBatchResults c2est c2tasks).filter
        (fun r => r.Error = none)) ∧
    (∀ i : Nat, (processBatchResults c2est c2tasks).get? i =
      (c2tasks.get? i).map (runOneBatchTask c2est))) :=
  ⟨List.Perm.refl _,
    processBatch_report_spec c2est c2tasks (processBatchResults c2est c2tasks)
      (List.Perm.refl _)⟩

/-!
Claim C5: the dataset enhancer never duplicates an entry, and reaches the
predicted size when each size bucket is rich enough.
-/

theorem addWhileBelow_eq_append (minC : Nat) (enh news : List SimilarityMatch) :
    ∃ k, addWhileBelow minC enh news = enh ++ news.take k := by
  induction news generalizing enh with
  | nil => exact ⟨0, by simp [addWhileBelow]⟩
  | cons x xs ih =>
    by_cases h : enh.length < minC
    · obtain ⟨k, hk⟩ := ih (enh ++ [x])
      refine ⟨k + 1, ?_⟩
      rw [addWhileBelow, if_pos h, hk]
      simp
    · refine ⟨0, ?_⟩
      rw [addWhileBelow, if_neg h]
      simp

theorem addWhileBelow_length (minC : Nat) (enh news : List SimilarityMatch)
    (h : enh.length ≤ minC) :
    (addWhileBelow minC enh news).length = min (enh.length + news.length) minC := by
  induction news generalizing enh with
  | nil =>
    rw [addWhileBelow]
    simp
    omega
  | cons x xs ih =>
    by_cases hlt : enh.length < minC
    · rw [addWhileBelow, if_pos hlt, ih (enh ++ [x]) (by simp; omega)]
      simp
      omega
    · rw [addWhileBelow, if_neg hlt]
      simp
      omega

theorem stratStep_shape (historical selected1 : List HistoricalTask) (minC sps : Nat)
    (enh : List SimilarityMatch) (size : String) :
    ∃ picked : List HistoricalTask,
      List.Sublist picked (historical.filter
        (fun h => h ∉ selected1 ∧ h.EstimatedSize = size)) ∧
      stratStep historical selected1 minC sps enh size =
        enh ++ picked.map (fun h => SimilarityMatch.mk h 0 ["stratified_sample"]) := by
  simp only [stratStep]
  split
  · exact ⟨[], List.nil_sublist _, by simp⟩
  · obtain ⟨k, hk⟩ := addWhileBelow_eq_append minC enh
      (((historical.filter (fun h => h ∉ selected1 ∧ h.EstimatedSize = size)).take
        (if (historical.filter (fun h => h ∉ selected1 ∧ h.EstimatedSize = size)).length < sps
         then (historical.filter (fun h => h ∉ selected1 ∧ h.EstimatedSize = size)).length
         else sps)).map (fun h => SimilarityMatch.mk h 0 ["stratified_sample"]))
    refine ⟨((historical.filter (fun h => h ∉ selected1 ∧ h.EstimatedSize = size)).take
        (if (historical.filter (fun h => h ∉ selected1 ∧ h.EstimatedSize = size)).length < sps
         then (historical.filter (fun h => h ∉ selected1 ∧ h.EstimatedSize = size)).length
         else sps)).take k, (List.take_sublist _ _).trans (List.take_sublist _ _), ?_⟩
    rw [hk, ← List.map_take]

theorem stratStep_length (historical selected1 : List HistoricalTask) (minC sps : Nat)
    (enh : List SimilarityMatch) (size : String)
    (henh : enh.length ≤ minC)
    (hbucket : sps ≤ (historical.filter
      (fun h => h ∉ selected1 ∧ h.EstimatedSize = size)).length) :
    (stratStep historical selected1 minC sps enh size).length =
      min (enh.length + sps) minC := by
  simp only [stratStep]
  split
  · rename_i hg
    omega
  · rw [if_neg (not_lt.mpr hbucket), addWhileBelow_length _ _ _ henh,
      List.length_map, List.length_take]
    omega

theorem stratFold_length (historical selected1 : List HistoricalTask) (minC sps : Nat)
    (S : List String) (enh : List SimilarityMatch)
    (henh : enh.length ≤ minC)
    (hb : ∀ s ∈ S, sps ≤ (historical.filter
      (fun h => h ∉ selected1 ∧ h.EstimatedSize = s)).length) :
    (S.foldl (stratStep historical selected1 minC sps) enh).length =
      min (enh.length + sps * S.length) minC := by
  induction S generalizing enh with
  | nil =>
    simp
    omega
  | cons s rest ih =>
    rw [List.foldl_cons]
    have hslen := stratStep_length historical selected1 minC sps enh s henh
      (hb s (List.mem_cons_self s rest))
    have hnew_le : (stratStep historical selected1 minC sps enh s).length ≤ minC := by
      omega
    rw [ih _ hnew_le (fun x hx => hb x (List.mem_cons_of_mem s hx)), hslen,
      List.length_cons, Nat.mul_succ]
    omega

theorem stratFold_nodup_sub (historical selected1 : List HistoricalTask)
    (minC sps : Nat) (S : List String) (enh : List SimilarityMatch)
    (hSnd : S.Nodup)
    (h1 : (enh.map SimilarityMatch.Task).Nodup)
    (h2 : ∀ sm ∈ enh, sm.Task ∈ selected1 ∨ sm.Task.EstimatedSize ∉ S)
    (hnd : historical.Nodup) :
    ((S.foldl (stratStep historical selected1 minC sps) enh).map
      SimilarityMatch.Task).Nodup ∧
    (∀ sm ∈ S.foldl (stratStep historical selected1 minC sps) enh,
      sm ∈ enh ∨ sm.Task ∈ historical) := by
  induction S generalizing enh with
  | nil => exact ⟨h1, fun sm hsm => Or.inl hsm⟩
  | cons s rest ih =>
    rw [List.foldl_cons]
    obtain ⟨picked, hsubl, heq⟩ := stratStep_shape historical selected1 minC sps enh s
    have hpicked_mem : ∀ h ∈ picked, h ∉ selected1 ∧ h.EstimatedSize = s := by
      intro h hh
      have hf := List.of_mem_filter (hsubl.subset hh)
      simpa using hf
    have hpicked_hist : ∀ h ∈ picked, h ∈ historical := fun h hh =>
      List.mem_of_mem_filter (hsubl.subset hh)
    have hpicked_nd : picked.Nodup := ((hnd.filter _).sublist hsubl)
    have hmapTask : ((enh ++ picked.map
        (fun h => SimilarityMatch.mk h 0 ["stratified_sample"])).map
          SimilarityMatch.Task) = enh.map SimilarityMatch.Task ++ picked := by
      rw [List.map_append, List.map_map]
      congr 1
      exact List.map_id picked
    have h1' : ((enh ++ picked.map
        (fun h => SimilarityMatch.mk h 0 ["stratified_sample"])).map
          SimilarityMatch.Task).Nodup := by
      rw [hmapTask]
      rw [List.nodup_append]
      refine ⟨h1, hpicked_nd, ?_⟩
      intro x hx hx2
      obtain ⟨sm, hsm, rfl⟩ := List.mem_map.mp hx
      rcases h2 sm hsm with hsel | hsz
      · exact (hpicked_mem _ hx2).1 hsel
      · exact hsz (by rw [(hpicked_mem _ hx2).2]; exact List.mem_cons_self s rest)
    have h2' : ∀ sm ∈ enh ++ picked.map
        (fun h => SimilarityMatch.mk h 0 ["stratified_sample"]),
        sm.Task ∈ selected1 ∨ sm.Task.EstimatedSize ∉ rest := by
      intro sm hsm
      rcases List.mem_append.mp hsm with hold | hnew
      · rcases h2 sm hold with hsel | hsz
        · exact Or.inl hsel
        · exact Or.inr (fun hc => hsz (List.mem_cons_of_mem s hc))
      · obtain ⟨h, hh, rfl⟩ := List.mem_map.mp hnew
        right
        rw [show (SimilarityMatch.mk h 0 ["stratified_sample"]).Task = h from rfl,
          (hpicked_mem h hh).2]
        exact (List.nodup_cons.mp hSnd).1
    obtain ⟨c1, c2⟩ := ih _ (List.nodup_cons.mp hSnd).2 h1' h2'
    rw [heq]
    refine ⟨c1, ?_⟩
    intro sm hsm
    rcases c2 sm hsm with hin | hh
    · rcases List.mem_append.mp hin with hI | hI
      · exact Or.inl hI
      · obtain ⟨h, hh2, rfl⟩ := List.mem_map.mp hI
        exact Or.inr (hpicked_hist h hh2)
    · exact Or.inr hh

/-- Claim C5. Under the default configuration, for distinct retriever
matches drawn from a duplicate-free corpus (at most the configured maximum
of 15 of them), the enhancer output never contains the same historical
entry twice; and when enough diverse entries exist — at least ten matches
already, or at least two unselected entries in every size bucket — the
final length is the minimum of max(matches, 10) and the corpus size. -/
theorem selectEnhancedDataset_spec (similarTasks : List SimilarityMatch)
    (historical : List HistoricalTask)
    (hnd : historical.Nodup)
    (hmnd : (similarTasks.map SimilarityMatch.Task).Nodup)
    (hsub : ∀ sm ∈ similarTasks, sm.Task ∈ historical)
    (hlen : similarTasks.length ≤ 15)
    (hdiverse : 10 ≤ similarTasks.length ∨
      ∀ s ∈ sizeOrder, 2 ≤ (historical.filter (fun h =>
        h ∉ similarTasks.map SimilarityMatch.Task ∧ h.EstimatedSize = s)).length) :
    ((selectEnhancedDataset similarTasks historical DefaultEstimationConfig).map
      SimilarityMatch.Task).Nodup ∧
    (selectEnhancedDataset similarTasks historical DefaultEstimationConfig).length =
      min (max similarTasks.length 10) historical.length := by
  have htake : similarTasks.take 15 = similarTasks :=
    List.take_of_length_le hlen
  have hsubset : (similarTasks.map SimilarityMatch.Task) ⊆ historical := by
    intro x hx
    obtain ⟨sm, hsm, rfl⟩ := List.mem_map.mp hx
    exact hsub sm hsm
  have hmsub : similarTasks.length ≤ historical.length := by
    have hle := (hmnd.subperm hsubset).length_le
    rw [List.length_map] at hle
    exact hle
  by_cases hm : 10 ≤ similarTasks.length
  · have hout : selectEnhancedDataset similarTasks historical DefaultEstimationConfig =
        similarTasks := by
      simp only [selectEnhancedDataset, DefaultEstimationConfig]
      have hcond : ¬ (similarTasks.length < 10) := by omega
      rw [htake, if_neg hcond, if_neg hcond]
    rw [hout]
    exact ⟨hmnd, by omega⟩
  · rcases hdiverse with h10 | hdiv
    · omega
    · push_neg at hm
      have hfold_len := stratFold_length historical
        (similarTasks.map SimilarityMatch.Task) 10 2 sizeOrder similarTasks
        (by omega) hdiv
      have hlen2 : (sizeOrder.foldl (stratStep historical
          (similarTasks.map SimilarityMatch.Task) 10 2) similarTasks).length = 10 := by
        rw [hfold_len, show sizeOrder.length = 5 from rfl]
        omega
      have hfold_props := stratFold_nodup_sub historical
        (similarTasks.map SimilarityMatch.Task) 10 2 sizeOrder similarTasks
        (by decide) hmnd
        (fun sm hsm => Or.inl (List.mem_map_of_mem SimilarityMatch.Task hsm)) hnd
      have hout : selectEnhancedDataset similarTasks historical DefaultEstimationConfig =
          sizeOrder.foldl (stratStep historical
            (similarTasks.map SimilarityMatch.Task) 10 2) similarTasks := by
        simp only [selectEnhancedDataset, DefaultEstimationConfig]
        rw [htake, if_pos hm, if_neg (by rw [hlen2]; omega)]
      rw [hout]
      have h10cs : 10 ≤ historical.length := by
        have hnd2 := hfold_props.1
        have hss : ((sizeOrder.foldl (stratStep historical
            (similarTasks.map SimilarityMatch.Task) 10 2) similarTasks).map
              SimilarityMatch.Task) ⊆ historical := by
          intro x hx
          obtain ⟨sm, hsm, rfl⟩ := List.mem_map.mp hx
          rcases hfold_props.2 sm hsm with hin | hin
          · exact hsub sm hin
          · exact hin
        have hle := (hnd2.subperm hss).length_le
        rw [List.length_map, hlen2] at hle
        exact hle
      refine ⟨hfold_props.1, ?_⟩
      rw [hlen2]
      omega

/-- A closed corpus entry with the given title and size. -/
def c5entry (t s : String) : HistoricalTask :=
  HistoricalTask.mk (some (GitHubIssue.mk t "" "closed" [] [])) 1 s 1

/-- Ten-entry corpus, two entries per size bucket, used by the enhancer
witness. -/
def c5corpus : List HistoricalTask :=
  [c5entry "a1" "XS", c5entry "a2" "XS", c5entry "b1" "S", c5entry "b2" "S",
   c5entry "c1" "M", c5entry "c2" "M", c5entry "d1" "L", c5entry "d2" "L",
   c5entry "e1" "XL", c5entry "e2" "XL"]

/-- Witness for selectEnhancedDataset_spec: no retriever matches, ten
diverse corpus entries, so the enhancer fills to exactly ten distinct
entries. -/
theorem selectEnhancedDataset_spec_witness :
    c5corpus.Nodup ∧
    (∀ s ∈ sizeOrder, 2 ≤ (c5corpus.filter (fun h =>
      h ∉ ([] : List SimilarityMatch).map SimilarityMatch.Task ∧
        h.EstimatedSize = s)).length) ∧
    (((selectEnhancedDataset [] c5corpus DefaultEstimationConfig).map
      SimilarityMatch.Task).Nodup ∧
    (selectEnhancedDataset [] c5corpus DefaultEstimationConfig).length =
      min (max ([] : List SimilarityMatch).length 10) c5corpus.length) := by
  have hnd : c5corpus.Nodup := by decide
  have hdiv : ∀ s ∈ sizeOrder, 2 ≤ (c5corpus.filter (fun h =>
      h ∉ ([] : List SimilarityMatch).map SimilarityMatch.Task ∧
        h.EstimatedSize = s)).length := by decide
  exact ⟨hnd, hdiv,
    selectEnhancedDataset_spec [] c5corpus hnd (by simp) (by simp) (by simp)
      (Or.inr hdiv)⟩

end SET